import Mathlib

/-!
Verification development for the Technical Debt Analyzer
(`backend/agents/technical_debt/debt_analyzer.py`).

The Python module is shallowly embedded below.  Conventions of the embedding:

* Text is processed as `List Char` (the analyzer only ever manipulates plain
  code points; `String.data` is taken at the boundary).
* `estimated_hours` is represented in tenths of an hour as an integer.
  Dyadic one-decimal quantities (`(c-15)*0.5`, `0.5*n`, `0.2`, `0.1`) are
  exact in IEEE-754 doubles, so their tenths are exact.  The two
  `round(x, 1)` call sites and the overall score are computed over binary
  floating point in the source; they are modelled bit-exactly with
  scaled-integer double-precision rounding (`flScaled` below).
* Python exceptions that the source catches are modelled with `Option`
  (`ast.parse` and `json.load` results travel with the file data, since the
  standard-library parsers themselves are outside the analyzed module).
* `re.sub(r"\s+", " ", s)` and friends are modelled over the ASCII
  whitespace class, which is the alphabet all analyzed content uses.
-/

/-! ## Character and text utilities -/

def isSpaceChar (c : Char) : Bool :=
  c = ' ' || c = '\t' || c = '\n' || c = '\r' || c = '\x0b' || c = '\x0c'

def isWordChar (c : Char) : Bool :=
  c.isAlpha || c.isDigit || c = '_'

/-- `str.strip()`: remove leading and trailing whitespace. -/
def stripCL (cs : List Char) : List Char :=
  ((cs.dropWhile isSpaceChar).reverse.dropWhile isSpaceChar).reverse

/-- Helper for `collapseWs` - the flag records whether we are inside a
whitespace run that has already emitted its single space. -/
def collapseWsAux : Bool → List Char → List Char
  | _, [] => []
  | inRun, c :: rest =>
    if isSpaceChar c then
      if inRun then collapseWsAux true rest
      else ' ' :: collapseWsAux true rest
    else c :: collapseWsAux false rest

/-- `re.sub(r"\s+", " ", s)`: collapse every whitespace run to one space. -/
def collapseWs (cs : List Char) : List Char :=
  collapseWsAux false cs

/-- `str.split("\n")`. -/
def splitLinesAux : List Char → List Char → List (List Char)
  | acc, [] => [acc.reverse]
  | acc, c :: rest =>
    if c = '\n' then acc.reverse :: splitLinesAux [] rest
    else splitLinesAux (c :: acc) rest

def splitLinesCL (cs : List Char) : List (List Char) :=
  splitLinesAux [] cs

/-- `"\n".join(blocks)`. -/
def joinNL : List (List Char) → List Char
  | [] => []
  | [b] => b
  | b :: rest => b ++ '\n' :: joinNL rest

/-- `pat` is a prefix of `cs`. -/
def hasPre : List Char → List Char → Bool
  | [], _ => true
  | _ :: _, [] => false
  | p :: ps, c :: cs => p = c && hasPre ps cs

/-- Python `pat in s` (substring containment). -/
def containsSub : List Char → List Char → Bool
  | cs, pat =>
    hasPre pat cs ||
      match cs with
      | [] => false
      | _ :: t => containsSub t pat

/-- Split at the first occurrence of `pat`: `(before, after)`. -/
def splitFirstSub : List Char → List Char → Option (List Char × List Char)
  | cs, pat =>
    if hasPre pat cs then some ([], cs.drop pat.length)
    else
      match cs with
      | [] => none
      | c :: t => (splitFirstSub t pat).map fun ba => (c :: ba.1, ba.2)

def toLowerCL (cs : List Char) : List Char :=
  cs.map Char.toLower

/-- `s.split(sep)` for a single-character separator (used for path segments). -/
def splitOnCharAux (sep : Char) : List Char → List Char → List (List Char)
  | acc, [] => [acc.reverse]
  | acc, c :: rest =>
    if c = sep then acc.reverse :: splitOnCharAux sep [] rest
    else splitOnCharAux sep (c :: acc) rest

def splitOnChar (sep : Char) (cs : List Char) : List (List Char) :=
  splitOnCharAux sep [] cs

/-- `s.endswith(suffix)`. -/
def endsWithCL (cs suffix : List Char) : Bool :=
  hasPre suffix.reverse cs.reverse

/-- Number of newline characters in the first `n` characters, as in
`content[:pos].count("\n")`. -/
def countNLBefore (cs : List Char) (n : Nat) : Nat :=
  (cs.take n).countP (· = '\n')

/-- A single apostrophe, used when rebuilding the message strings of the source. -/
def aposStr : String :=
  String.mk [Char.ofNat 39]

def joinComma : List String → String
  | [] => ""
  | [s] => s
  | s :: rest => s ++ ", " ++ joinComma rest

/-- Keep the first occurrence of each element (canonical enumeration order for
the unordered sets of Python). -/
def dedupFirst : List String → List String
  | [] => []
  | s :: rest => s :: (dedupFirst rest).filter (· ≠ s)

/-! ## Issues

`estimated_hours` is stored in tenths of an hour.  The dyadic effort values
(`(c-15)*0.5`, `0.5*n`, `0.2`, `0.1`) are exact decimals in the doubles of
the source.  The `round((len-50)*0.05, 1)` sites are modelled by `jsHoursTenths`,
which reproduces the CPython computation bit-exactly (double product, then
correctly-rounded decimal rounding of that double).  The one unrounded
non-dyadic value, the god-object `method_count * 0.3`, is represented by its
decimal intent `3 * method_count` tenths (the stored double differs from it
by less than `2 ^ (-45)`, and no consumer reads that value other than as the
decimal); no claim constrains it beyond non-negativity. -/

structure Issue where
  file_path : String
  issue_type : String
  category : String
  severity : String
  title : String
  description : String
  line_start : Option Nat
  line_end : Option Nat
  estimated_hours : ℤ
deriving DecidableEq, Repr

/-! ### Bit-exact IEEE-754 double-precision arithmetic on scaled integers

A non-negative double is an integer at a power-of-two scale.  `flScaled`
rounds a scaled integer to 53 significant bits - exactly the
double-precision rounding (round-to-nearest, ties-to-even) of the value it
denotes at any fixed scale.  The constants `0.4`, `0.3` and `0.05` are the
IEEE doubles nearest those decimals, scaled by `2 ^ 54`, `2 ^ 54` and
`2 ^ 57`. -/

/-- `n.bit_length()`.  The first argument is recursion fuel; `n + 1` always
suffices since `n < 2 ^ (n + 1)`. -/
def bitLenAux : Nat → Nat → Nat
  | 0, _ => 0
  | fuel + 1, n => if n = 0 then 0 else bitLenAux fuel (n / 2) + 1

def bitLen (n : Nat) : Nat :=
  bitLenAux (n + 1) n

/-- The nearest multiple of `2 ^ k` to `n`, ties to the even multiple. -/
def roundHalfEvenPow (n k : Nat) : Nat :=
  if k = 0 then n
  else if n % 2 ^ k < 2 ^ (k - 1) then n / 2 ^ k * 2 ^ k
  else if 2 ^ (k - 1) < n % 2 ^ k then (n / 2 ^ k + 1) * 2 ^ k
  else if n / 2 ^ k % 2 = 0 then n / 2 ^ k * 2 ^ k
  else (n / 2 ^ k + 1) * 2 ^ k

/-- Round a non-negative scaled integer to 53 significant bits. -/
def flScaled (n : Nat) : Nat :=
  if bitLen n ≤ 53 then n else roundHalfEvenPow n (bitLen n - 53)

/-- The double `0.4`, scaled by `2 ^ 54`. -/
def dblScaled04 : Nat := 7205759403792794

/-- The double `0.3`, scaled by `2 ^ 54`. -/
def dblScaled03 : Nat := 5404319552844595

/-- The double `0.05`, scaled by `2 ^ 57`. -/
def dblScaled05 : Nat := 7205759403792794

/-- `int(c * 0.4 + d * 0.3 + dep * 0.3)` computed exactly as CPython does:
the integers convert to doubles, each product and each left-associated sum
is rounded to double precision (all at scale `2 ^ 54`), and `int` truncates
the non-negative result. -/
def pyOverall (c d dep : Nat) : Nat :=
  flScaled (flScaled (flScaled (flScaled c * dblScaled04)
      + flScaled (flScaled d * dblScaled03))
    + flScaled (flScaled dep * dblScaled03)) / 2 ^ 54

/-- `round((length - 50) * 0.05, 1)` in tenths, computed exactly as CPython
does: the factor `k` converts to a double, is multiplied by the double
`0.05` with double-precision rounding (scale `2 ^ 57`), and the result is
rounded to the nearest tenth of the exact value of that double, ties to the
even tenth (the correctly-rounded decimal rounding that the float `round`
of CPython performs). -/
def jsHoursTenths (k : Nat) : Nat :=
  roundHalfEvenPow (10 * flScaled (flScaled k * dblScaled05)) 57 / 2 ^ 57

/-! ## Score calculation (`_calculate_scores`) -/

def severityWeight (s : String) : Nat :=
  if s = "critical" then 15
  else if s = "high" then 10
  else if s = "medium" then 5
  else 2

def penaltyOf (issues : List Issue) : Nat :=
  (issues.map fun i => severityWeight i.severity).sum

/-- Per-bucket score.  The source computes
`max(0, 100 - int(penalty / max(files, 1) * 10))` with real division; for
naturals `p`, `f` the floor of `p / max f 1 * 10` is exactly
`10 * p / max f 1` in integer division, which is the form used here. -/
def calcCategoryScore (issues : List Issue) (files : Nat) : ℤ :=
  if issues = [] then 100
  else max 0 (100 - (10 * (penaltyOf issues : ℤ)) / (max files 1 : ℕ))

structure Scores where
  overall : ℤ
  complexity : ℤ
  duplication : ℤ
  dependency : ℤ
deriving DecidableEq, Repr

/-- `_calculate_scores`.  The overall score
`int(c*0.4 + d*0.3 + dep*0.3)` is computed in binary floating point, which
`pyOverall` renders bit-exactly (the bucket scores are non-negative, so
`Int.toNat` is faithful and `int` truncation is a floor). -/
def calcScores (issues : List Issue) (files : Nat) : Scores :=
  if files = 0 then ⟨100, 100, 100, 100⟩
  else
    let complexityIssues := issues.filter (fun i => i.issue_type = "complexity")
    let duplicationIssues := issues.filter (fun i => i.issue_type = "duplication")
    let dependencyIssues := issues.filter (fun i => i.issue_type = "dependency")
    let smellIssues := issues.filter (fun i => i.issue_type = "smell")
    let architectureIssues := issues.filter (fun i => i.issue_type = "architecture")
    let c := calcCategoryScore (complexityIssues ++ smellIssues ++ architectureIssues) files
    let d := calcCategoryScore duplicationIssues files
    let dep := calcCategoryScore dependencyIssues files
    ⟨(pyOverall c.toNat d.toNat dep.toNat : ℤ), c, d, dep⟩

/-! Spec-side renderings of the score formulas (§4.6 of the design):
real-number arithmetic with an explicit floor, exactly as the specification
words them. -/

def specBucketScore (issues : List Issue) (files : Nat) : ℤ :=
  if issues = [] then 100
  else max 0 (100 - ⌊((penaltyOf issues : ℚ) / (max files 1 : ℕ)) * 10⌋)

def specOverall (c d dep : ℤ) : ℤ :=
  ⌊(c : ℚ) * 0.4 + (d : ℚ) * 0.3 + (dep : ℚ) * 0.3⌋

/-! ## Python abstract syntax trees

A closed tagged-variant rendering of the `ast` node kinds the analyzer
inspects.  Node kinds it never matches on (`Try`, `Call`, `Assign`, ...)
are represented by `otherNode`, which carries their child nodes so that
`ast.walk` traversals see the same set of relevant descendants.
`lineno` / `endLineno` model the corresponding node attributes. -/

inductive NameCtx where
  | store : NameCtx
  | load : NameCtx
  | del : NameCtx

mutual
inductive PyAst where
  | moduleNode (body : PyAstList) : PyAst
  | functionDef (name : String) (lineno endLineno : Nat) (body : PyAstList) : PyAst
  | asyncFunctionDef (name : String) (lineno endLineno : Nat) (body : PyAstList) : PyAst
  | classDef (name : String) (lineno endLineno : Nat) (body : PyAstList) : PyAst
  | ifStmt (children : PyAstList) : PyAst
  | whileStmt (children : PyAstList) : PyAst
  | forStmt (children : PyAstList) : PyAst
  | asyncForStmt (children : PyAstList) : PyAst
  | exceptHandler (children : PyAstList) : PyAst
  | boolOp (values : PyAstList) : PyAst
  | nameExpr (id : String) (ctx : NameCtx) : PyAst
  | otherNode (children : PyAstList) : PyAst

inductive PyAstList where
  | pnil : PyAstList
  | pcons (hd : PyAst) (tl : PyAstList) : PyAstList
end

def PyAstList.plen : PyAstList → Nat
  | .pnil => 0
  | .pcons _ t => 1 + t.plen

mutual
/-- `ast.walk(node)`: the node itself and all of its descendants.  The source
enumerates breadth-first; the traversal order is irrelevant to every count and
to the per-node issue predicates, so the embedding enumerates depth-first. -/
def astWalk : PyAst → List PyAst
  | .moduleNode body => .moduleNode body :: astWalkL body
  | .functionDef n l e body => .functionDef n l e body :: astWalkL body
  | .asyncFunctionDef n l e body => .asyncFunctionDef n l e body :: astWalkL body
  | .classDef n l e body => .classDef n l e body :: astWalkL body
  | .ifStmt cs => .ifStmt cs :: astWalkL cs
  | .whileStmt cs => .whileStmt cs :: astWalkL cs
  | .forStmt cs => .forStmt cs :: astWalkL cs
  | .asyncForStmt cs => .asyncForStmt cs :: astWalkL cs
  | .exceptHandler cs => .exceptHandler cs :: astWalkL cs
  | .boolOp vs => .boolOp vs :: astWalkL vs
  | .nameExpr i c => [.nameExpr i c]
  | .otherNode cs => .otherNode cs :: astWalkL cs

def astWalkL : PyAstList → List PyAst
  | .pnil => []
  | .pcons h t => astWalk h ++ astWalkL t
end

/-- Per-node complexity increment of `_calculate_cyclomatic_complexity`:
`If`/`While`/`For`/`AsyncFor` and exception handlers add 1, a boolean
operator adds `len(values) - 1`, everything else adds nothing. -/
def cxWeight : PyAst → Nat
  | .ifStmt _ => 1
  | .whileStmt _ => 1
  | .forStmt _ => 1
  | .asyncForStmt _ => 1
  | .exceptHandler _ => 1
  | .boolOp vs => vs.plen - 1
  | _ => 0

/-- `_calculate_cyclomatic_complexity`: start at 1, add the weight of every
node `ast.walk` yields from the function node. -/
def cyclomaticComplexity (node : PyAst) : Nat :=
  ((astWalk node).map cxWeight).sum + 1

/-- Immediate function/async-function children of a class body
(`sum(1 for n in node.body if isinstance(n, (FunctionDef, AsyncFunctionDef)))`). -/
def methodCount : PyAstList → Nat
  | .pnil => 0
  | .pcons (.functionDef _ _ _ _) t => 1 + methodCount t
  | .pcons (.asyncFunctionDef _ _ _ _) t => 1 + methodCount t
  | .pcons _ t => methodCount t

/-- The complexity issue for one function node, when its complexity exceeds 15
(`_analyze_python_complexity`, function branch). -/
def fnCxIssue (relPath fname : String) (lineno endLineno cx : Nat) : List Issue :=
  if 15 < cx then
    [{ file_path := relPath
       issue_type := "complexity"
       category := "High Cyclomatic Complexity"
       severity := if 25 < cx then "critical" else if 20 < cx then "high" else "medium"
       title := "Function " ++ aposStr ++ fname ++ aposStr ++ " has high complexity (" ++ toString cx ++ ")"
       description := "The function " ++ aposStr ++ fname ++ aposStr ++ " has a cyclomatic complexity of " ++ toString cx ++ ", which exceeds the recommended threshold of 15. High complexity makes code harder to understand, test, and maintain."
       line_start := some lineno
       line_end := some endLineno
       estimated_hours := ((cx : ℤ) - 15) * 5 }]
  else []

/-- The god-object issue for one class node (`_analyze_python_complexity`,
class branch); `method_count * 0.3` hours is `3 * method_count` tenths. -/
def classIssue (relPath cname : String) (lineno endLineno mcount : Nat) : List Issue :=
  if 20 < mcount then
    [{ file_path := relPath
       issue_type := "architecture"
       category := "God Object"
       severity := "high"
       title := "Class " ++ aposStr ++ cname ++ aposStr ++ " has too many methods (" ++ toString mcount ++ ")"
       description := "The class " ++ aposStr ++ cname ++ aposStr ++ " has " ++ toString mcount ++ " methods, indicating it may have too many responsibilities. This violates the Single Responsibility Principle."
       line_start := some lineno
       line_end := some endLineno
       estimated_hours := 3 * (mcount : ℤ) }]
  else []

/-- What the walk loop of `_analyze_python_complexity` emits at one node. -/
def cxEmit (relPath : String) : PyAst → List Issue
  | .functionDef n l e body =>
      fnCxIssue relPath n l e (cyclomaticComplexity (.functionDef n l e body))
  | .asyncFunctionDef n l e body =>
      fnCxIssue relPath n l e (cyclomaticComplexity (.asyncFunctionDef n l e body))
  | .classDef n l e body => classIssue relPath n l e (methodCount body)
  | _ => []

/-- `_analyze_python_complexity` on a parsed module. -/
def pyCxIssues (relPath : String) (tree : PyAst) : List Issue :=
  (astWalk tree).flatMap (cxEmit relPath)

/-- The long-method issue for one function node
(`_detect_long_python_functions`); `round((len-50)*0.05, 1)` hours is
`jsHoursTenths (len - 50)` tenths. -/
def longFnIssue (relPath fname : String) (lineno endLineno : Nat) : List Issue :=
  if 50 < endLineno - lineno then
    [{ file_path := relPath
       issue_type := "smell"
       category := "Long Method"
       severity := if 100 < endLineno - lineno then "high" else "medium"
       title := "Function " ++ aposStr ++ fname ++ aposStr ++ " is too long (" ++ toString (endLineno - lineno) ++ " lines)"
       description := "This function has " ++ toString (endLineno - lineno) ++ " lines of code, which exceeds the recommended maximum of 50 lines. Long functions are harder to understand and maintain."
       line_start := some lineno
       line_end := some endLineno
       estimated_hours := (jsHoursTenths (endLineno - lineno - 50) : ℤ) }]
  else []

def longEmit (relPath : String) : PyAst → List Issue
  | .functionDef n l e _ => longFnIssue relPath n l e
  | .asyncFunctionDef n l e _ => longFnIssue relPath n l e
  | _ => []

/-- `_detect_long_python_functions` on a parsed module. -/
def pyLongIssues (relPath : String) (tree : PyAst) : List Issue :=
  (astWalk tree).flatMap (longEmit relPath)

def storeName : PyAst → Option String
  | .nameExpr i .store => some i
  | _ => none

def loadName : PyAst → Option String
  | .nameExpr i .load => some i
  | _ => none

/-- The unused-variable set of one function scope:
`assigned - used`, excluding names starting with an underscore.  The source
holds these in Python sets whose enumeration order is unspecified; the
embedding enumerates in first-assignment order. -/
def unusedVarsOf (node : PyAst) : List String :=
  let walked := astWalk node
  let assigned := walked.filterMap storeName
  let used := walked.filterMap loadName
  (dedupFirst assigned).filter fun v => ¬ v ∈ used ∧ ¬ v.startsWith "_"

def unusedIssue (relPath fname : String) (lineno : Nat) (unused : List String) : List Issue :=
  if unused = [] then []
  else
    [{ file_path := relPath
       issue_type := "smell"
       category := "Unused Variable"
       severity := "low"
       title := "Function " ++ aposStr ++ fname ++ aposStr ++ " has unused variables: " ++ joinComma (unused.take 3)
       description := "Found " ++ toString unused.length ++ " unused variable(s): " ++ joinComma unused ++ ". Remove unused variables to improve code clarity."
       line_start := some lineno
       line_end := none
       estimated_hours := 1 }]

def unusedEmit (relPath : String) : PyAst → List Issue
  | .functionDef n l e body => unusedIssue relPath n l (unusedVarsOf (.functionDef n l e body))
  | .asyncFunctionDef n l e body => unusedIssue relPath n l (unusedVarsOf (.asyncFunctionDef n l e body))
  | _ => []

/-- `_detect_unused_python_variables` on a parsed module. -/
def pyUnusedIssues (relPath : String) (tree : PyAst) : List Issue :=
  (astWalk tree).flatMap (unusedEmit relPath)

/-- All per-file issues of a Python file: `_analyze_complexity` followed by
`_detect_code_smells`.  `ast.parse` failure (`none`) is caught in the source
(`except SyntaxError: pass` and the bare `except`), so each analyzer
contributes nothing. -/
def pyAllIssues (relPath : String) : Option PyAst → List Issue
  | none => []
  | some tree => pyCxIssues relPath tree ++ pyLongIssues relPath tree ++ pyUnusedIssues relPath tree

/-! ## JavaScript/TypeScript heuristics

The source locates function-like declarations with
`re.finditer(r"(?:function|const|let)\s+(\w+)\s*[=\(].*?{", content)`
(`_detect_long_js_functions`) and with the same pattern extended by `var`
(`_analyze_js_complexity`).  Because the literal alternatives start with
distinct characters and `\s` / `\w` are disjoint character classes, the
pattern matches deterministically by maximal munch; `.` does not cross
newlines and `.*?{` stops at the first `{` after the `=`/`(`. -/

/-- Drop a literal keyword prefix. -/
def dropKw : List Char → List Char → Option (List Char)
  | [], cs => some cs
  | _ :: _, [] => none
  | k :: ks, c :: cs => if k = c then dropKw ks cs else none

/-- `.*?{`: length of the lazy scan up to and including the first `{`,
failing at a newline or the end of input. -/
def scanToBrace : List Char → Option Nat
  | [] => none
  | c :: rest =>
    if c = '{' then some 1
    else if c = '\n' then none
    else (scanToBrace rest).map (· + 1)

/-- Try to match the declaration pattern at the start of `cs` for one keyword:
returns `(matched length, captured name)`. -/
def matchKwAt (kw : String) (cs : List Char) : Option (Nat × String) :=
  match dropKw kw.data cs with
  | none => none
  | some r1 =>
    let sp := r1.takeWhile isSpaceChar
    if sp.isEmpty then none
    else
      let r2 := r1.dropWhile isSpaceChar
      let wd := r2.takeWhile isWordChar
      if wd.isEmpty then none
      else
        let r3 := r2.dropWhile isWordChar
        let sp2 := r3.takeWhile isSpaceChar
        let r4 := r3.dropWhile isSpaceChar
        match r4 with
        | [] => none
        | c :: r5 =>
          if c = '=' ∨ c = '(' then
            (scanToBrace r5).map fun k =>
              (kw.length + sp.length + wd.length + sp2.length + 1 + k, String.mk wd)
          else none

/-- Match the alternation at the start of `cs`: first keyword whose literal is
a prefix (at most one can be, since the first characters differ). -/
def matchAnyKw (kws : List String) (cs : List Char) : Option (Nat × String) :=
  match kws with
  | [] => none
  | kw :: rest =>
    match matchKwAt kw cs with
    | some r => some r
    | none => matchAnyKw rest cs

/-- `re.finditer`: scan left to right, resuming after each match.
Yields `(start position, end position, captured name)`.  The pattern cannot
match the empty string, so the `max len 1` guard never changes the step. -/
def findMatchesAux (kws : List String) (cs : List Char) : Nat → Nat → List (Nat × Nat × String)
  | 0, _ => []
  | fuel + 1, p =>
    if p < cs.length then
      match matchAnyKw kws (cs.drop p) with
      | some (len, nm) => (p, p + len, nm) :: findMatchesAux kws cs fuel (p + max len 1)
      | none => findMatchesAux kws cs fuel (p + 1)
    else []

def findMatches (kws : List String) (cs : List Char) : List (Nat × Nat × String) :=
  findMatchesAux kws cs (cs.length + 1) 0

/-- The brace-depth scan of the source: starting at the first `{`, find the
position whose `}` returns the depth to zero. -/
def braceScan : List Char → ℤ → Nat → Option Nat
  | [], _, _ => none
  | c :: rest, depth, i =>
    if c = '{' then braceScan rest (depth + 1) (i + 1)
    else if c = '}' then
      if depth - 1 = 0 then some i else braceScan rest (depth - 1) (i + 1)
    else braceScan rest depth (i + 1)

/-- `func_end` computation: scan from `funcStart`; when no closing brace
matches, the source leaves `func_end` at `funcStart`. -/
def braceEndPos (cs : List Char) (funcStart : Nat) : Nat :=
  match braceScan (cs.drop funcStart) 0 funcStart with
  | some e => e
  | none => funcStart

/-- Keywords of `_analyze_js_complexity` (`function|const|let|var`). -/
def jsCxKws : List String := ["function", "const", "let", "var"]

/-- Keywords of `_detect_long_js_functions` (`function|const|let` - no `var`). -/
def jsLongKws : List String := ["function", "const", "let"]

/-- Count of whole-word occurrences of `w` (`len(re.findall(r"\bw\b", body))`):
positions where `w` occurs with no word character on either side. -/
def countWordAux (w : List Char) (preIsWord : Bool) : List Char → Nat
  | [] => 0
  | c :: rest =>
    (if ¬ preIsWord ∧ hasPre w (c :: rest) ∧
        ¬ (((c :: rest).drop w.length).headD ' ').isAlphanum ∧
        ((c :: rest).drop w.length).headD ' ' ≠ '_' then 1 else 0)
      + countWordAux w (isWordChar c) rest

def countWord (body w : List Char) : Nat :=
  countWordAux w false body

/-- `len(re.findall(r"&&|\|\|", body))`: non-overlapping left-to-right. -/
def countAndOr : List Char → Nat
  | [] => 0
  | [_] => 0
  | a :: b :: rest =>
    if (a = '&' ∧ b = '&') ∨ (a = '|' ∧ b = '|') then 1 + countAndOr rest
    else countAndOr (b :: rest)

/-- Decision-point count of `_analyze_js_complexity` over a function body. -/
def jsComplexityOf (body : List Char) : Nat :=
  1 + countWord body "if".data + countWord body "for".data
    + countWord body "while".data + countWord body "case".data
    + countWord body "catch".data + countAndOr body

/-- Complexity of the matched function body.  `content.find("{", start)` is
the `{` the pattern matched on (also the first `{` at or after the match
start), so `func_start = e - 1`; the body slice is
`content[func_start:func_end]`. -/
def jsCxOfMatch (cs : List Char) (m : Nat × Nat × String) : Nat :=
  jsComplexityOf ((cs.take (braceEndPos cs (m.2.1 - 1))).drop (m.2.1 - 1))

def jsCxIssueOf (relPath : String) (cs : List Char) (m : Nat × Nat × String) : List Issue :=
  if 15 < jsCxOfMatch cs m then
    [{ file_path := relPath
       issue_type := "complexity"
       category := "High Cyclomatic Complexity"
       severity := if 25 < jsCxOfMatch cs m then "critical"
         else if 20 < jsCxOfMatch cs m then "high" else "medium"
       title := "Function " ++ aposStr ++ m.2.2 ++ aposStr ++ " has high complexity (" ++ toString (jsCxOfMatch cs m) ++ ")"
       description := "This function has a cyclomatic complexity of " ++ toString (jsCxOfMatch cs m) ++ ", which exceeds the recommended threshold of 15."
       line_start := some (countNLBefore cs m.1 + 1)
       line_end := none
       estimated_hours := ((jsCxOfMatch cs m : ℤ) - 15) * 5 }]
  else []

/-- `_analyze_js_complexity`. -/
def jsCxIssues (relPath : String) (content : String) : List Issue :=
  (findMatches jsCxKws content.data).flatMap (jsCxIssueOf relPath content.data)

/-- Span in source lines between the match start line and the line of the
matched closing brace (`end_line - start_line`). -/
def jsFnSpan (cs : List Char) (m : Nat × Nat × String) : Nat :=
  let startLine := countNLBefore cs m.1 + 1
  let funcStart := m.2.1 - 1
  let endLine := countNLBefore cs (braceEndPos cs funcStart) + 1
  endLine - startLine

def jsLongIssueOf (relPath : String) (cs : List Char) (m : Nat × Nat × String) : List Issue :=
  let startLine := countNLBefore cs m.1 + 1
  let funcStart := m.2.1 - 1
  let endLine := countNLBefore cs (braceEndPos cs funcStart) + 1
  let funcLength := endLine - startLine
  if 50 < funcLength then
    [{ file_path := relPath
       issue_type := "smell"
       category := "Long Method"
       severity := if 100 < funcLength then "high" else "medium"
       title := "Function " ++ aposStr ++ m.2.2 ++ aposStr ++ " is too long (" ++ toString funcLength ++ " lines)"
       description := "This function has " ++ toString funcLength ++ " lines of code, which exceeds the recommended maximum of 50 lines."
       line_start := some startLine
       line_end := some endLine
       estimated_hours := (jsHoursTenths (funcLength - 50) : ℤ) }]
  else []

/-- `_detect_long_js_functions`. -/
def jsLongIssues (relPath : String) (content : String) : List Issue :=
  (findMatches jsLongKws content.data).flatMap (jsLongIssueOf relPath content.data)

/-- All per-file issues of a `.js`/`.ts`/`.tsx`/`.jsx` file:
`_analyze_complexity` followed by `_detect_code_smells`. -/
def jsAllIssues (relPath : String) (content : String) : List Issue :=
  jsCxIssues relPath content ++ jsLongIssues relPath content

/-! ## Duplication detection (`_detect_duplication`)

The source hashes each normalized 5-line window with MD5 and groups window
positions by hash value; the embedding groups directly by the normalized text
(the hash is content-addressed, so equal keys stand for equal normalized
blocks). -/

/-- `min_block_size` of the source. -/
def minBlockSize : Nat := 5

/-- The normalized text of the window of 5 lines starting at 0-based line `i`. -/
def normWindow (lines : List (List Char)) (i : Nat) : List Char :=
  collapseWs (stripCL (joinNL ((lines.drop i).take minBlockSize)))

/-- All recorded windows of one file, in scan order:
`(normalized block, (rel_path, 1-based start line))`.  Windows whose
normalized text has length `≤ 50` are discarded.
`range(len(lines) - min_block_size + 1)` is empty for files of fewer than
5 lines, which `lines.length + 1 - minBlockSize` renders in `Nat`. -/
def windowsOf (relPath : String) (content : String) : List (List Char × String × Nat) :=
  let lines := splitLinesCL content.data
  (List.range (lines.length + 1 - minBlockSize)).filterMap fun i =>
    let normalized := normWindow lines i
    if 50 < normalized.length then some (normalized, relPath, i + 1) else none

/-- Append one occurrence to the group of its key, keeping the key order of
first appearance (Python `defaultdict(list)` insertion order). -/
def addOcc (m : List (List Char × List (String × Nat))) (k : List Char) (v : String × Nat) :
    List (List Char × List (String × Nat)) :=
  match m with
  | [] => [(k, [v])]
  | (k', vs) :: rest =>
    if k' = k then (k', vs ++ [v]) :: rest else (k', vs) :: addOcc rest k v

/-- `code_block_hashes` after both scan loops, over the corpus in load order. -/
def dupGroups (corpus : List (String × String)) : List (List Char × List (String × Nat)) :=
  (corpus.flatMap fun rc => windowsOf rc.1 rc.2).foldl (fun m w => addOcc m w.1 w.2) []

/-- The up-to-3 distinct files of the description:
`", ".join(set(f[0] for f in occurrences[:3]))` (set order canonicalized to
first appearance). -/
def dupMentionedFiles (occ : List (String × Nat)) : List String :=
  dedupFirst ((occ.take 3).map Prod.fst)

/-- One duplication issue for a group of occurrences (`0.5 * n` hours is
`5 * n` tenths). -/
def dupIssueOf (occ : List (String × Nat)) : Issue :=
  let first := occ.headD ("", 0)
  { file_path := first.1
    issue_type := "duplication"
    category := "Code Duplication"
    severity := if 3 < occ.length then "medium" else "low"
    title := "Duplicate code block found in " ++ toString occ.length ++ " locations"
    description := "This code block appears in " ++ toString occ.length ++ " different locations: " ++ joinComma (dupMentionedFiles occ) ++ ". Consider extracting to a shared function."
    line_start := some first.2
    line_end := some (first.2 + minBlockSize)
    estimated_hours := 5 * (occ.length : ℤ) }

/-- `_detect_duplication`: one issue per group with more than one occurrence.
(The `reported_hashes` guard of the source never fires, since the dict already
holds each hash once.) -/
def detectDuplication (corpus : List (String × String)) : List Issue :=
  (dupGroups corpus).filterMap fun g =>
    if 1 < g.2.length then some (dupIssueOf g.2) else none

/-! ## Dependency analysis (`_analyze_dependencies`) -/

/-- `line.split("==")[1].strip()`: the version part, between the first and the
second `==` (or everything past the first when there is no second). -/
def reqVersionOf (after : List Char) : List Char :=
  stripCL (match splitFirstSub after "==".data with
    | some (b, _) => b
    | none => after)

/-- The issue emitted for one split requirements line when the version looks
legacy and the package is not `python` (`0.2` hours is 2 tenths). -/
def reqIssueFor (lineNum : Nat) (packageName version : List Char) : List Issue :=
  if (containsSub version "0.".data ∨ containsSub version "1.".data ∨
        containsSub version "2.".data) ∧ packageName ≠ "python".data then
    [{ file_path := "requirements.txt"
       issue_type := "dependency"
       category := "Potentially Outdated Dependency"
       severity := "low"
       title := "Package " ++ aposStr ++ String.mk packageName ++ aposStr ++ " may be outdated (v" ++ String.mk version ++ ")"
       description := "The package " ++ aposStr ++ String.mk packageName ++ aposStr ++ " is pinned to version " ++ String.mk version ++ ". Consider checking for updates."
       line_start := some lineNum
       line_end := none
       estimated_hours := 2 }]
  else []

/-- What one `requirements.txt` line contributes.
`lineNum` is the 1-based manifest line number. -/
def reqLineIssues (lineNum : Nat) (rawLine : List Char) : List Issue :=
  if stripCL rawLine ≠ [] ∧ ¬ hasPre "#".data (stripCL rawLine) then
    match splitFirstSub (stripCL rawLine) "==".data with
    | none => []
    | some (before, after) => reqIssueFor lineNum (stripCL before) (reqVersionOf after)
  else []

/-- The requirements part of `_analyze_dependencies` on the manifest text. -/
def reqIssues (content : String) : List Issue :=
  ((splitLinesCL content.data).enum.map fun nl => (nl.1 + 1, nl.2)).flatMap
    fun nl => reqLineIssues nl.1 nl.2

/-- A parsed `package.json`: the `dependencies` and `devDependencies` objects
in document order (what `json.load` hands the analyzer). -/
structure PkgJson where
  deps : List (String × String)
  devDeps : List (String × String)

/-- `{**data.get("dependencies", {}), **data.get("devDependencies", {})}`:
keys of the first dict in order (later value winning), then new keys of the
second. -/
def mergeDeps (a b : List (String × String)) : List (String × String) :=
  (a.map fun kv => (kv.1, match b.find? (fun kv2 => kv2.1 = kv.1) with
    | some kv2 => kv2.2
    | none => kv.2))
    ++ b.filter fun kv2 => (a.find? fun kv => kv.1 = kv2.1).isNone

/-- The package.json part of `_analyze_dependencies` (`0.1` hours is 1 tenth;
the source sets no line numbers for these issues). -/
def pkgIssues (j : PkgJson) : List Issue :=
  (mergeDeps j.deps j.devDeps).filterMap fun pv =>
    if hasPre "^".data pv.2.data ∨ hasPre "~".data pv.2.data then
      some
        { file_path := "package.json"
          issue_type := "dependency"
          category := "Flexible Dependency Version"
          severity := "low"
          title := "Package " ++ aposStr ++ pv.1 ++ aposStr ++ " uses flexible versioning (" ++ pv.2 ++ ")"
          description := "Consider pinning exact versions for production stability."
          line_start := none
          line_end := none
          estimated_hours := 1 }
    else none

/-! ## Filesystem model and file collection

`analyze_project` consumes a root path string and the directory tree it
designates.  The world is modelled as the optional entry at `project_path`
(`none` = the root does not exist or is unreadable); paths outside that tree
do not exist.  A file entry carries its text together with the outcome of the
standard-library parsers on that text (`ast.parse` for `.py` analysis,
`json.load` for `package.json`), `none` meaning the parser raises. -/

structure FileData where
  content : String
  pyTree : Option PyAst
  jsonVal : Option PkgJson

mutual
inductive FSEntry where
  | fileE (name : String) (data : FileData) : FSEntry
  | dirE (name : String) (entries : FSList) : FSEntry

inductive FSList where
  | fnil : FSList
  | fcons (e : FSEntry) (t : FSList) : FSList
end

def findEntry : FSList → String → Option FSEntry
  | .fnil, _ => none
  | .fcons e t, n =>
    match e with
    | .fileE nm d => if nm = n then some (.fileE nm d) else findEntry t n
    | .dirE nm es => if nm = n then some (.dirE nm es) else findEntry t n

/-- Resolve a relative path (as segments) inside an entry. -/
def resolveNode : FSEntry → List String → Option FSEntry
  | e, [] => some e
  | .fileE _ _, _ :: _ => none
  | .dirE _ es, s :: rest =>
    match findEntry es s with
    | some e => resolveNode e rest
    | none => none

def segsOf (rel : String) : List String :=
  (splitOnChar '/' rel.data).map String.mk

/-- `os.path.exists(project_path + "/" + rel)` within the modelled world
(directories exist too). -/
def pathExists (root : Option FSEntry) (rel : String) : Bool :=
  match root with
  | none => false
  | some e => (resolveNode e (segsOf rel)).isSome

/-- Open-and-read of a relative path: succeeds exactly on files.
(The source reads with `errors="ignore"`, so existing files always decode.) -/
def resolveData (root : Option FSEntry) (rel : String) : Option FileData :=
  match root with
  | none => none
  | some e =>
    match resolveNode e (segsOf rel) with
    | some (.fileE _ d) => some d
    | _ => none

/-- `os.path.join(project_path, f)` (an absolute second argument wins). -/
def joinPath (projectPath f : String) : String :=
  if hasPre "/".data f.data then f else projectPath ++ "/" ++ f

/-- `os.path.relpath(file_path, project_path)` for paths produced by
`joinPath`. -/
def relOf (projectPath abs : String) : String :=
  if hasPre (projectPath ++ "/").data abs.data then
    String.mk (abs.data.drop (projectPath ++ "/").data.length)
  else abs

def excludeDirs : List String :=
  [".git", "venv", "__pycache__", "node_modules", ".next", "dist", "build", "coverage"]

def codeExtensions : List String :=
  [".py", ".js", ".ts", ".tsx", ".jsx", ".java", ".cpp", ".c", ".cs", ".go", ".rb", ".php"]

/-- `os.path.splitext(name)[1].lower()`: the suffix from the last dot, where
the leading dots of the basename never start an extension. -/
def extOf (name : String) : String :=
  let lead := (name.data.takeWhile (· = '.')).length
  let rest := name.data.drop lead
  if rest.any (· = '.') then
    String.mk (toLowerCL ('.' :: ((rest.reverse.takeWhile (· ≠ '.')).reverse)))
  else ""

/-- `"test" in s.lower() or "spec" in s.lower()`. -/
def testLike (s : String) : Bool :=
  containsSub (toLowerCL s.data) "test".data || containsSub (toLowerCL s.data) "spec".data

/-- Files of one directory level that `_collect_code_files` keeps, as paths
relative to the project root (`pre` carries the parent segments). -/
def filesAt (pre : String) (includeTests : Bool) : FSList → List String
  | .fnil => []
  | .fcons (.fileE nm _) t =>
    (if decide (extOf nm ∈ codeExtensions) && (includeTests || ! testLike nm)
     then [pre ++ nm] else []) ++ filesAt pre includeTests t
  | .fcons (.dirE _ _) t => filesAt pre includeTests t

mutual
/-- The walk of `_collect_code_files`.  At each directory: if its depth reaches
`max_depth`, nothing below it (files included) is collected; otherwise its
kept files come first, then the contents of its kept subdirectories in
order.  Subdirectories in the exclusion set are pruned, and so are
test-like ones when `include_tests` is false. -/
def walkDir (pre : String) (depth maxDepth : Nat) (includeTests : Bool) : FSEntry → List String
  | .fileE _ _ => []
  | .dirE _ es =>
    if maxDepth ≤ depth then []
    else filesAt pre includeTests es ++ walkSubdirs pre depth maxDepth includeTests es

def walkSubdirs (pre : String) (depth maxDepth : Nat) (includeTests : Bool) : FSList → List String
  | .fnil => []
  | .fcons (.fileE _ _) t => walkSubdirs pre depth maxDepth includeTests t
  | .fcons (.dirE nm es) t =>
    (if decide (¬ nm ∈ excludeDirs) && (includeTests || ! testLike nm) then
      walkDir (pre ++ nm ++ "/") (depth + 1) maxDepth includeTests (.dirE nm es)
     else []) ++ walkSubdirs pre depth maxDepth includeTests t
end

/-- `_collect_code_files`, as root-relative paths.  `os.walk` swallows the
scandir error of a missing or unreadable root and yields nothing, and yields
nothing for a file root. -/
def collectRel (root : Option FSEntry) (includeTests : Bool) (maxDepth : Nat) : List String :=
  match root with
  | none => []
  | some e => walkDir "" 0 maxDepth includeTests e

/-- The file-collection step of `analyze_project`: a *non-empty*
`specific_files` list (Python truthiness) selects the entries that exist once
joined to the root and bypasses traversal; `None` and the empty list walk the
tree.  Results are absolute paths. -/
def selectFiles (projectPath : String) (root : Option FSEntry) (includeTests : Bool)
    (maxDepth : Nat) (specificFiles : Option (List String)) : List String :=
  match specificFiles with
  | some (f :: fs) =>
    ((f :: fs).filter fun g => pathExists root (relOf projectPath (joinPath projectPath g))).map
      (joinPath projectPath)
  | _ => (collectRel root includeTests maxDepth).map fun r => projectPath ++ "/" ++ r

/-- Assignment into `self.file_contents` (Python dict semantics: an existing
key keeps its position, its value is replaced). -/
def dictSet (m : List (String × String)) (k v : String) : List (String × String) :=
  if m.any (fun kv => kv.1 = k) then
    m.map fun kv => if kv.1 = k then (k, v) else kv
  else m ++ [(k, v)]

def dictGet (m : List (String × String)) (k d : String) : String :=
  match m.find? (fun kv => kv.1 = k) with
  | some kv => kv.2
  | none => d

/-- First pass of `analyze_project`: load every collected file into the
corpus; a path that does not read as a file (e.g. a directory named in
`specific_files`) is skipped by the `except` clause. -/
def buildCorpus (projectPath : String) (root : Option FSEntry) (codeFiles : List String) :
    List (String × String) :=
  codeFiles.foldl
    (fun m abs =>
      match resolveData root (relOf projectPath abs) with
      | some d => dictSet m (relOf projectPath abs) d.content
      | none => m)
    []

/-- Second pass, one file: `_analyze_complexity` then `_detect_code_smells`,
dispatched on the extension of the path over the cached content
(`self.file_contents.get(rel_path, "")`).  For a `.py` file the analyzers
parse that content; the parse outcome is the `pyTree` carried by the data of
the file (a corpus miss reads as `""`, which parses to an empty module and
contributes nothing, rendered here by the `none` branch of `pyAllIssues`). -/
def perFileIssues (projectPath : String) (root : Option FSEntry)
    (corpus : List (String × String)) (abs : String) : List Issue :=
  let rel := relOf projectPath abs
  if endsWithCL abs.data ".py".data then
    pyAllIssues rel ((resolveData root rel).bind FileData.pyTree)
  else if endsWithCL abs.data ".js".data || endsWithCL abs.data ".ts".data ||
      endsWithCL abs.data ".tsx".data || endsWithCL abs.data ".jsx".data then
    jsAllIssues rel (dictGet corpus rel "")
  else []

/-- Root-level manifest analysis (`_analyze_dependencies`): a missing
manifest, a manifest that fails to open, and a `package.json` that fails to
parse each contribute nothing. -/
def analyzeDependencies (root : Option FSEntry) : List Issue :=
  (match resolveData root "requirements.txt" with
   | some d => reqIssues d.content
   | none => [])
  ++
  (match resolveData root "package.json" with
   | some d =>
     match d.jsonVal with
     | some j => pkgIssues j
     | none => []
   | none => [])

structure Report where
  overall_score : ℤ
  complexity_score : ℤ
  duplication_score : ℤ
  dependency_score : ℤ
  total_issues : Nat
  critical_issues : Nat
  estimated_hours : ℤ
  issues : List Issue
  files_analyzed : Nat
deriving DecidableEq, Repr

/-- `analyze_project`.  The per-file loop increments `files_analyzed` once per
collected path (its `except` branch is unreachable: every per-file analyzer
catches its own failures). -/
def analyzeProject (projectPath : String) (root : Option FSEntry) (includeTests : Bool)
    (maxDepth : Nat) (specificFiles : Option (List String)) : Report :=
  let codeFiles := selectFiles projectPath root includeTests maxDepth specificFiles
  let corpus := buildCorpus projectPath root codeFiles
  let perFile := codeFiles.flatMap (perFileIssues projectPath root corpus)
  let dup := detectDuplication corpus
  let dep := analyzeDependencies root
  let allIssues := perFile ++ dup ++ dep
  let scores := calcScores allIssues codeFiles.length
  { overall_score := scores.overall
    complexity_score := scores.complexity
    duplication_score := scores.duplication
    dependency_score := scores.dependency
    total_issues := allIssues.length
    critical_issues := (allIssues.filter fun i => i.severity = "critical").length
    estimated_hours := (allIssues.map Issue.estimated_hours).sum
    issues := allIssues
    files_analyzed := codeFiles.length }

/-! ## Spec-side definitions and concrete inputs used by the theorems -/

/-- Spec-side predicate: `If`/`While`/`For` nodes including async variants. -/
def isDecisionNode : PyAst → Bool
  | .ifStmt _ => true
  | .whileStmt _ => true
  | .forStmt _ => true
  | .asyncForStmt _ => true
  | _ => false

/-- Spec-side predicate: exception-handler clauses. -/
def isHandlerNode : PyAst → Bool
  | .exceptHandler _ => true
  | _ => false

/-- Spec-side count: `operand_count - 1` at a boolean-operator node. -/
def boolOpExcess : PyAst → Nat
  | .boolOp vs => vs.plen - 1
  | _ => 0

/-- The complexity formula of the claim: 1 plus the number of decision nodes in the
subtree, plus the number of handler clauses, plus the boolean-operator
excess. -/
def specComplexity (n : PyAst) : Nat :=
  1 + (astWalk n).countP isDecisionNode + (astWalk n).countP isHandlerNode
    + ((astWalk n).map boolOpExcess).sum

/-- Well-formedness required of every emitted issue (the §3 invariant). -/
def WFIssue (i : Issue) : Prop :=
  i.severity ∈ ["critical", "high", "medium", "low"]
    ∧ 0 ≤ i.estimated_hours
    ∧ i.issue_type ∈ ["complexity", "smell", "duplication", "dependency", "architecture"]

/-- The package/version split of a requirements line, as the claim words it:
text before the first `==`, text between the first and the second. -/
def reqSplit (line : List Char) : Option (List Char × List Char) :=
  match splitFirstSub line "==".data with
  | none => none
  | some (before, after) => some (stripCL before, reqVersionOf after)

/-- A chain of `k` bare `if` statements (one decision point each). -/
def repIfs : Nat → PyAstList
  | 0 => .pnil
  | k + 1 => .pcons (.ifStmt (.pcons (.nameExpr "a" .load) (.pcons (.otherNode .pnil) .pnil))) (repIfs k)

/-- `def f(): if a and b and c: ...` - one `If` whose test is a 3-operand
boolean operator. -/
def exampleAndFn : PyAst :=
  .functionDef "f" 1 3
    (.pcons
      (.ifStmt
        (.pcons
          (.boolOp (.pcons (.nameExpr "a" .load)
            (.pcons (.nameExpr "b" .load) (.pcons (.nameExpr "c" .load) .pnil))))
          (.pcons (.otherNode .pnil) .pnil)))
      .pnil)

/-- A 60-line `var`-bound function expression. -/
def varContent : String :=
  "var f = function() \x7b" ++ String.mk (List.replicate 60 '\n') ++ "\x7d"

/-- The same function bound with `const`. -/
def constContent : String :=
  "const f = function() \x7b" ++ String.mk (List.replicate 60 '\n') ++ "\x7d"

def dupLine : String := "abcdefghij0;"

/-- Five identical 12-character lines: one 5-line window whose normalized text
has 64 characters. -/
def dupBlock : String :=
  dupLine ++ "\n" ++ dupLine ++ "\n" ++ dupLine ++ "\n" ++ dupLine ++ "\n" ++ dupLine

/-- The same qualifying block verbatim in three distinct files. -/
def exCorpus3 : List (String × String) :=
  [("f1.py", dupBlock), ("f2.py", dupBlock), ("f3.py", dupBlock)]

/-- A root directory holding a single trivial Python file. -/
def exFS5 : FSEntry :=
  .dirE "proj" (.fcons (.fileE "a.py" ⟨"", some (.moduleNode .pnil), none⟩) .fnil)

/-- 15 nested-free `if` statements inside `g`, complexity 16. -/
def goodTree : PyAst :=
  .moduleNode (.pcons (.functionDef "g" 1 31 (repIfs 15)) .pnil)

def goodContent : String :=
  "def g():\n" ++ String.join (List.replicate 15 "    if a:\n        pass\n")

/-- A root with one file that fails to parse, one that parses to `goodTree`,
and a `package.json` that is not valid JSON. -/
def exFS8 : FSEntry :=
  .dirE "proj8"
    (.fcons (.fileE "bad.py" ⟨"def f(:", none, none⟩)
      (.fcons (.fileE "good.py" ⟨goodContent, some goodTree, none⟩)
        (.fcons (.fileE "package.json" ⟨"\x7b not json", none, none⟩) .fnil)))

/-- A root holding only a requirements manifest with one pinned legacy
dependency. -/
def exFS9 : FSEntry :=
  .dirE "proj9" (.fcons (.fileE "requirements.txt" ⟨"flask==1.1.2", none, none⟩) .fnil)

/-! ## Lemmas: double-precision rounding -/

lemma bitLenAux_zero (fuel : Nat) : bitLenAux fuel 0 = 0 := by
  cases fuel <;> rfl

lemma bitLenAux_spec (fuel : Nat) :
    ∀ n, n < 2 ^ fuel → 0 < n →
      2 ^ (bitLenAux fuel n - 1) ≤ n ∧ n < 2 ^ bitLenAux fuel n := by
  induction fuel with
  | zero =>
    intro n h hn
    simp at h
    omega
  | succ fuel ih =>
    intro n h hn
    rw [show bitLenAux (fuel + 1) n = if n = 0 then 0 else bitLenAux fuel (n / 2) + 1 from rfl,
      if_neg (by omega)]
    by_cases h1 : n = 1
    · subst h1
      rw [show (1 : Nat) / 2 = 0 from rfl, bitLenAux_zero]
      norm_num
    · have hn2 : 0 < n / 2 := by omega
      have hlt : n / 2 < 2 ^ fuel := by
        have hp : (2 : Nat) ^ (fuel + 1) = 2 * 2 ^ fuel := by ring
        omega
      obtain ⟨l, u⟩ := ih (n / 2) hlt hn2
      have hm1 : 1 ≤ bitLenAux fuel (n / 2) := by
        rcases Nat.eq_zero_or_pos (bitLenAux fuel (n / 2)) with h0 | h0
        · rw [h0] at u
          simp at u
          omega
        · exact h0
      have e1 : (2 : Nat) ^ bitLenAux fuel (n / 2)
          = 2 * 2 ^ (bitLenAux fuel (n / 2) - 1) := by
        conv_lhs => rw [show bitLenAux fuel (n / 2) = (bitLenAux fuel (n / 2) - 1) + 1 by omega]
        ring
      have e2 : (2 : Nat) ^ (bitLenAux fuel (n / 2) + 1)
          = 2 * 2 ^ bitLenAux fuel (n / 2) := by ring
      constructor
      · simp only [Nat.add_sub_cancel]
        omega
      · omega

lemma bitLen_spec (n : Nat) (hn : 0 < n) :
    2 ^ (bitLen n - 1) ≤ n ∧ n < 2 ^ bitLen n :=
  bitLenAux_spec (n + 1) n
    (lt_of_lt_of_le (Nat.lt_two_pow n) (Nat.pow_le_pow_right (by norm_num) (by omega))) hn

lemma roundHalfEvenPow_err (n k : Nat) :
    roundHalfEvenPow n k ≤ n + 2 ^ (k - 1) ∧ n ≤ roundHalfEvenPow n k + 2 ^ (k - 1) := by
  rcases Nat.eq_zero_or_pos k with hk | hk
  · subst hk
    simp [roundHalfEvenPow]
  · have hMH : (2 : Nat) ^ k = 2 * 2 ^ (k - 1) := by
      conv_lhs => rw [show k = (k - 1) + 1 by omega]
      ring
    unfold roundHalfEvenPow
    rw [if_neg (by omega)]
    have hpos : (0 : Nat) < 2 ^ k := by positivity
    generalize hH : (2 : Nat) ^ (k - 1) = H at *
    generalize hM : (2 : Nat) ^ k = M at *
    have hd : n / M * M + n % M = n := by
      rw [Nat.mul_comm]
      exact Nat.div_add_mod n M
    have e2 : (n / M + 1) * M = n / M * M + M := by ring
    have hr : n % M < M := Nat.mod_lt n hpos
    split_ifs with h1 h2 h3 <;> omega

/-- Half-ulp error bound of double rounding: `|flScaled n - n| ≤ n / 2 ^ 53`,
stated multiplied out. -/
lemma flScaled_err (n : Nat) :
    2 ^ 53 * flScaled n ≤ 2 ^ 53 * n + n ∧ 2 ^ 53 * n ≤ 2 ^ 53 * flScaled n + n := by
  unfold flScaled
  split_ifs with h
  · omega
  · have hn : 0 < n := by
      rcases Nat.eq_zero_or_pos n with h0 | h0
      · rw [h0, show bitLen 0 = 0 from rfl] at h
        omega
      · exact h0
    obtain ⟨hl, -⟩ := bitLen_spec n hn
    obtain ⟨e1, e2⟩ := roundHalfEvenPow_err n (bitLen n - 53)
    have hpow : (2 : Nat) ^ 53 * 2 ^ (bitLen n - 53 - 1) = 2 ^ (bitLen n - 1) := by
      rw [← pow_add]
      congr 1
      omega
    have m1 := Nat.mul_le_mul_left (2 ^ 53) e1
    have m2 := Nat.mul_le_mul_left (2 ^ 53) e2
    rw [Nat.mul_add, hpow] at m1 m2
    omega

lemma flScaled_small (n : Nat) (h : n < 2 ^ 53) : flScaled n = n := by
  unfold flScaled
  rcases Nat.eq_zero_or_pos n with h0 | h0
  · rw [h0]
    rfl
  · obtain ⟨hl, -⟩ := bitLen_spec n h0
    rw [if_pos]
    by_contra hb
    push_neg at hb
    have : (2 : Nat) ^ 53 ≤ 2 ^ (bitLen n - 1) :=
      Nat.pow_le_pow_right (by norm_num) (by omega)
    omega

/-- The float overall score is the exact floor, or one below it at boundary
cases. -/
lemma pyOverall_spec (c d dep : Nat) (hc : c ≤ 100) (hd : d ≤ 100) (hdep : dep ≤ 100) :
    pyOverall c d dep ≤ (4 * c + 3 * d + 3 * dep) / 10
      ∧ (4 * c + 3 * d + 3 * dep) / 10 ≤ pyOverall c d dep + 1 := by
  unfold pyOverall
  rw [flScaled_small c (by omega), flScaled_small d (by omega), flScaled_small dep (by omega)]
  unfold dblScaled04 dblScaled03
  have h1 := flScaled_err (c * 7205759403792794)
  have h2 := flScaled_err (d * 5404319552844595)
  have h3 := flScaled_err (dep * 5404319552844595)
  have h4 := flScaled_err
    (flScaled (c * 7205759403792794) + flScaled (d * 5404319552844595))
  have h5 := flScaled_err
    (flScaled (flScaled (c * 7205759403792794) + flScaled (d * 5404319552844595))
      + flScaled (dep * 5404319552844595))
  omega

/-! ## Lemmas: score calculation -/

lemma calcCategoryScore_eq_spec (l : List Issue) (f : Nat) :
    calcCategoryScore l f = specBucketScore l f := by
  unfold calcCategoryScore specBucketScore
  split
  · rfl
  · congr 2
    rw [div_mul_eq_mul_div]
    have h : ((penaltyOf l : ℚ)) * 10 = (((10 * (penaltyOf l : ℤ) : ℤ)) : ℚ) := by
      push_cast; ring
    rw [h, Rat.floor_intCast_div_natCast]

lemma overall_eq_spec (c d dep : ℤ) :
    (4 * c + 3 * d + 3 * dep) / 10 = specOverall c d dep := by
  unfold specOverall
  have h : (c : ℚ) * 0.4 + (d : ℚ) * 0.3 + (dep : ℚ) * 0.3
      = (((4 * c + 3 * d + 3 * dep : ℤ)) : ℚ) / ((10 : ℕ) : ℚ) := by
    push_cast; ring_nf
  rw [h, Rat.floor_intCast_div_natCast]
  norm_num

lemma calcCategoryScore_nonneg (l : List Issue) (f : Nat) :
    0 ≤ calcCategoryScore l f := by
  unfold calcCategoryScore
  split
  · norm_num
  · exact le_max_left 0 _

lemma calcCategoryScore_le (l : List Issue) (f : Nat) :
    calcCategoryScore l f ≤ 100 := by
  unfold calcCategoryScore
  split
  · norm_num
  · refine max_le (by norm_num) ?_
    have h0 : (0 : ℤ) ≤ (10 * (penaltyOf l : ℤ)) / (max f 1 : ℕ) :=
      Int.ediv_nonneg (by positivity) (by positivity)
    omega

/-- The float-vs-exact relation for the overall score, on the integer bucket
scores the calculator produces. -/
lemma pyOverall_vs_spec (c d dep : ℤ) (hc0 : 0 ≤ c) (hc : c ≤ 100) (hd0 : 0 ≤ d)
    (hd : d ≤ 100) (hdep0 : 0 ≤ dep) (hdep : dep ≤ 100) :
    (pyOverall c.toNat d.toNat dep.toNat : ℤ) ≤ specOverall c d dep
      ∧ specOverall c d dep - 1 ≤ (pyOverall c.toNat d.toNat dep.toNat : ℤ) := by
  obtain ⟨hu, hl⟩ := pyOverall_spec c.toNat d.toNat dep.toNat (by omega) (by omega) (by omega)
  rw [← overall_eq_spec]
  omega

/-- C2 (amended): score calculation.  For every issue list and every
`files_analyzed`, the calculator produces a valid tuple (all four scores in
`[0, 100]`); when `files_analyzed = 0` all four scores are 100 regardless of
the issues; when `files_analyzed > 0` the three bucket scores are the
formula `max(0, 100 - floor(penalty / max(files,1) * 10))` over the buckets
with smell and architecture folded into complexity, and the overall score is
`int(c*0.4 + d*0.3 + dep*0.3)` evaluated in IEEE-754 double precision
(`pyOverall`), which equals the exact `floor(c*0.4 + d*0.3 + dep*0.3)` or
falls one below it at boundary cases. -/
theorem c2_score_calculation (issues : List Issue) (files : Nat) :
    (0 ≤ (calcScores issues files).overall ∧ (calcScores issues files).overall ≤ 100
      ∧ 0 ≤ (calcScores issues files).complexity ∧ (calcScores issues files).complexity ≤ 100
      ∧ 0 ≤ (calcScores issues files).duplication ∧ (calcScores issues files).duplication ≤ 100
      ∧ 0 ≤ (calcScores issues files).dependency ∧ (calcScores issues files).dependency ≤ 100)
    ∧ (files = 0 → calcScores issues files = ⟨100, 100, 100, 100⟩)
    ∧ (0 < files →
        (calcScores issues files).complexity
          = specBucketScore
              ((issues.filter fun i => i.issue_type = "complexity")
                ++ (issues.filter fun i => i.issue_type = "smell")
                ++ (issues.filter fun i => i.issue_type = "architecture")) files
        ∧ (calcScores issues files).duplication
          = specBucketScore (issues.filter fun i => i.issue_type = "duplication") files
        ∧ (calcScores issues files).dependency
          = specBucketScore (issues.filter fun i => i.issue_type = "dependency") files
        ∧ (calcScores issues files).overall
          = (pyOverall (calcScores issues files).complexity.toNat
              (calcScores issues files).duplication.toNat
              (calcScores issues files).dependency.toNat : ℤ)
        ∧ (calcScores issues files).overall
            ≤ specOverall (calcScores issues files).complexity
                (calcScores issues files).duplication (calcScores issues files).dependency
        ∧ specOverall (calcScores issues files).complexity
              (calcScores issues files).duplication (calcScores issues files).dependency - 1
            ≤ (calcScores issues files).overall) := by
  by_cases h : files = 0
  · subst h
    refine ⟨?_, fun _ => by simp [calcScores], fun h0 => absurd h0 (by omega)⟩
    simp only [calcScores, if_pos rfl]
    norm_num
  · have hne : files ≠ 0 := h
    simp only [calcScores, if_neg hne]
    set cx := calcCategoryScore ((issues.filter fun i => i.issue_type = "complexity")
      ++ (issues.filter fun i => i.issue_type = "smell")
      ++ (issues.filter fun i => i.issue_type = "architecture")) files with hcx
    set du := calcCategoryScore (issues.filter fun i => i.issue_type = "duplication") files
      with hdu
    set de := calcCategoryScore (issues.filter fun i => i.issue_type = "dependency") files
      with hde
    have bcx := And.intro (calcCategoryScore_nonneg ((issues.filter fun i => i.issue_type = "complexity")
      ++ (issues.filter fun i => i.issue_type = "smell")
      ++ (issues.filter fun i => i.issue_type = "architecture")) files)
      (calcCategoryScore_le ((issues.filter fun i => i.issue_type = "complexity")
      ++ (issues.filter fun i => i.issue_type = "smell")
      ++ (issues.filter fun i => i.issue_type = "architecture")) files)
    have bdu := And.intro
      (calcCategoryScore_nonneg (issues.filter fun i => i.issue_type = "duplication") files)
      (calcCategoryScore_le (issues.filter fun i => i.issue_type = "duplication") files)
    have bde := And.intro
      (calcCategoryScore_nonneg (issues.filter fun i => i.issue_type = "dependency") files)
      (calcCategoryScore_le (issues.filter fun i => i.issue_type = "dependency") files)
    rw [← hcx] at bcx
    have hover := pyOverall_vs_spec cx du de bcx.1 bcx.2 bdu.1 bdu.2 bde.1 bde.2
    have hspec100 : specOverall cx du de ≤ 100 := by
      rw [← overall_eq_spec]
      omega
    refine ⟨⟨by positivity, ?_, bcx.1, bcx.2, bdu.1, bdu.2, bde.1, bde.2⟩,
      fun h0 => absurd h0 hne, fun _ =>
        ⟨calcCategoryScore_eq_spec _ _, calcCategoryScore_eq_spec _ _,
          calcCategoryScore_eq_spec _ _, by trivial, hover.1, hover.2⟩⟩
    omega

def c2Issue : Issue :=
  { file_path := "w.py", issue_type := "complexity", category := "High Cyclomatic Complexity"
    severity := "medium", title := "", description := ""
    line_start := some 1, line_end := some 2, estimated_hours := 5 }

/-- Witness for C2 at a concrete input. -/
theorem c2_witness :
    (0 : Nat) < 2
      ∧ (calcScores [c2Issue] 2).complexity = specBucketScore [c2Issue] 2
      ∧ (calcScores [c2Issue] 2).overall
          ≤ specOverall (calcScores [c2Issue] 2).complexity
              (calcScores [c2Issue] 2).duplication (calcScores [c2Issue] 2).dependency
      ∧ calcScores [c2Issue] 0 = ⟨100, 100, 100, 100⟩ := by
  have h := c2_score_calculation [c2Issue] 2
  have h0 := c2_score_calculation [c2Issue] 0
  refine ⟨by decide, ?_, (h.2.2 (by decide)).2.2.2.2.1, h0.2.1 rfl⟩
  have h2 := (h.2.2 (by decide)).1
  have hfilter : ((([c2Issue].filter fun i => i.issue_type = "complexity"))
      ++ ([c2Issue].filter fun i => i.issue_type = "smell")
      ++ ([c2Issue].filter fun i => i.issue_type = "architecture")) = [c2Issue] := by decide
  rw [hfilter] at h2
  exact h2

/-! Concrete issue lists reaching the bucket scores `(0, 2, 48)` with
`files_analyzed = 5`: complexity-bucket penalty 50 (5 high), duplication
penalty 49 (9 medium + 2 low), dependency penalty 26 (13 low). -/

def c2CxHighIssue : Issue :=
  { file_path := "w.py", issue_type := "complexity", category := "High Cyclomatic Complexity"
    severity := "high", title := "", description := ""
    line_start := some 1, line_end := some 2, estimated_hours := 30 }

def c2DupMedIssue : Issue :=
  { file_path := "w.py", issue_type := "duplication", category := "Code Duplication"
    severity := "medium", title := "", description := ""
    line_start := some 1, line_end := some 6, estimated_hours := 20 }

def c2DupLowIssue : Issue :=
  { file_path := "w.py", issue_type := "duplication", category := "Code Duplication"
    severity := "low", title := "", description := ""
    line_start := some 1, line_end := some 6, estimated_hours := 10 }

def c2DepLowIssue : Issue :=
  { file_path := "requirements.txt", issue_type := "dependency"
    category := "Potentially Outdated Dependency", severity := "low", title := ""
    description := "", line_start := some 1, line_end := none, estimated_hours := 2 }

def c2BadIssues : List Issue :=
  List.replicate 5 c2CxHighIssue ++ List.replicate 9 c2DupMedIssue
    ++ List.replicate 2 c2DupLowIssue ++ List.replicate 13 c2DepLowIssue

/-- C2 counterexample: at the reachable state with bucket scores
`(0, 2, 48)` and `files_analyzed = 5`, the code computes
`int(0*0.4 + 2*0.3 + 48*0.3) = int(14.999999999999998) = 14` in binary
floating point, not the exact `floor(15.0) = 15` the claim states. -/
theorem c2_counterexample :
    (calcScores c2BadIssues 5).complexity = 0
      ∧ (calcScores c2BadIssues 5).duplication = 2
      ∧ (calcScores c2BadIssues 5).dependency = 48
      ∧ (calcScores c2BadIssues 5).overall = 14
      ∧ specOverall 0 2 48 = 15 := by
  refine ⟨by decide, by decide, by decide, by decide, ?_⟩
  rw [← overall_eq_spec]
  decide

/-! ## Lemmas: cyclomatic complexity -/

lemma cxWeight_split (x : PyAst) :
    cxWeight x = (if isDecisionNode x then 1 else 0) + (if isHandlerNode x then 1 else 0)
      + boolOpExcess x := by
  cases x <;> simp [cxWeight, isDecisionNode, isHandlerNode, boolOpExcess]

lemma sum_cxWeight (l : List PyAst) :
    (l.map cxWeight).sum
      = l.countP isDecisionNode + l.countP isHandlerNode + (l.map boolOpExcess).sum := by
  induction l with
  | nil => simp
  | cons x xs ih =>
    simp only [List.map_cons, List.sum_cons, List.countP_cons, ih, cxWeight_split x]
    by_cases h1 : isDecisionNode x <;> by_cases h2 : isHandlerNode x <;>
      simp [h1, h2] <;> omega

/-- C3: structural-AST complexity.  For every node, and in particular every
function or async-function node, `_calculate_cyclomatic_complexity` equals
1 plus the number of `If`/`While`/`For` nodes (async variants included) in the
subtree, plus the number of exception-handler clauses, plus the sum over
boolean-operator nodes of `operand_count - 1`.  A complexity issue is emitted
exactly when the complexity exceeds 15, with severity medium for 16-20, high
for 21-25, critical above 25, and `round((complexity-15)*0.5, 1)` hours
(`(complexity-15)*5` tenths).  `if a and b and c:` alone gives complexity 4;
complexity 15 emits nothing and complexity 16 emits a medium issue. -/
theorem c3_cyclomatic_complexity :
    (∀ n : PyAst, cyclomaticComplexity n = specComplexity n)
    ∧ (∀ relPath fname lineno endLineno cx, cx ≤ 15 →
        fnCxIssue relPath fname lineno endLineno cx = [])
    ∧ (∀ relPath fname lineno endLineno cx, 15 < cx →
        ∃ i, fnCxIssue relPath fname lineno endLineno cx = [i]
          ∧ i.issue_type = "complexity"
          ∧ i.severity = (if 25 < cx then "critical" else if 20 < cx then "high" else "medium")
          ∧ i.estimated_hours = ((cx : ℤ) - 15) * 5
          ∧ i.line_start = some lineno ∧ i.line_end = some endLineno)
    ∧ (∀ relPath fname lineno endLineno cx i,
        fnCxIssue relPath fname lineno endLineno cx = [i] →
          (16 ≤ cx → cx ≤ 20 → i.severity = "medium")
          ∧ (21 ≤ cx → cx ≤ 25 → i.severity = "high")
          ∧ (26 ≤ cx → i.severity = "critical"))
    ∧ cyclomaticComplexity exampleAndFn = 4
    ∧ cxEmit "ex.py" (.functionDef "g" 1 2 (repIfs 14)) = []
    ∧ (cxEmit "ex.py" (.functionDef "g" 1 2 (repIfs 15))).map Issue.severity = ["medium"]
    ∧ cyclomaticComplexity (.functionDef "g" 1 2 (repIfs 14)) = 15
    ∧ cyclomaticComplexity (.functionDef "g" 1 2 (repIfs 15)) = 16 := by
  refine ⟨?_, ?_, ?_, ?_, by decide, by decide, by decide, by decide, by decide⟩
  · intro n
    unfold cyclomaticComplexity specComplexity
    rw [sum_cxWeight]
    omega
  · intro relPath fname lineno endLineno cx h
    have hlt : ¬ 15 < cx := by omega
    simp [fnCxIssue, hlt]
  · intro relPath fname lineno endLineno cx h
    refine ⟨_, by rw [fnCxIssue, if_pos h], rfl, rfl, rfl, rfl, rfl⟩
  · intro relPath fname lineno endLineno cx i h
    unfold fnCxIssue at h
    by_cases h15 : 15 < cx
    · rw [if_pos h15] at h
      have hi : i.severity
          = (if 25 < cx then "critical" else if 20 < cx then "high" else "medium") := by
        cases h; rfl
      refine ⟨fun ha hb => ?_, fun ha hb => ?_, fun ha => ?_⟩
      · rw [hi, if_neg (by omega), if_neg (by omega)]
      · rw [hi, if_neg (by omega), if_pos (by omega)]
      · rw [hi, if_pos (by omega)]
    · rw [if_neg h15] at h
      exact absurd h (by simp)

/-- Witness for C3 at concrete inputs. -/
theorem c3_witness :
    cyclomaticComplexity exampleAndFn = specComplexity exampleAndFn
      ∧ fnCxIssue "w.py" "g" 1 2 15 = []
      ∧ (∃ i, fnCxIssue "w.py" "g" 1 2 16 = [i]
          ∧ i.issue_type = "complexity"
          ∧ i.severity = (if 25 < 16 then "critical" else if 20 < 16 then "high" else "medium")
          ∧ i.estimated_hours = ((16 : ℤ) - 15) * 5
          ∧ i.line_start = some 1 ∧ i.line_end = some 2) :=
  ⟨c3_cyclomatic_complexity.1 exampleAndFn,
    c3_cyclomatic_complexity.2.1 "w.py" "g" 1 2 15 (by decide),
    c3_cyclomatic_complexity.2.2.1 "w.py" "g" 1 2 16 (by decide)⟩

/-! ## C1, C5: file selection and the missing-root behavior -/

/-- The empty report the analyzer returns when nothing is collected. -/
def vacuousReport : Report :=
  { overall_score := 100, complexity_score := 100, duplication_score := 100
    dependency_score := 100, total_issues := 0, critical_issues := 0
    estimated_hours := 0, issues := [], files_analyzed := 0 }

/-- C1 (amended): the run never fails.  For every root path the run terminates
with a complete report; a nonexistent or unreadable root is not detected - its
traversal yields no files (`os.walk` swallows the scandir error), both
manifest probes fail, and the run returns the vacuous all-100 report with
`files_analyzed = 0` - for every choice of the remaining arguments, including
any `specific_files` list. -/
theorem c1_missing_root_vacuous (projectPath : String) (includeTests : Bool)
    (maxDepth : Nat) (specificFiles : Option (List String)) :
    analyzeProject projectPath none includeTests maxDepth specificFiles = vacuousReport := by
  have hsel : selectFiles projectPath none includeTests maxDepth specificFiles = [] := by
    match specificFiles with
    | none => rfl
    | some [] => rfl
    | some (f :: fs) => simp [selectFiles, pathExists]
  simp [analyzeProject, hsel, buildCorpus, detectDuplication, dupGroups,
    analyzeDependencies, resolveData, calcScores, vacuousReport]

/-- C1 counterexample: on a nonexistent root the claimed fatal failure does
not happen - the code produces a complete (vacuous) report. -/
theorem c1_counterexample :
    analyzeProject "proj" none true 10 none = vacuousReport
      ∧ (analyzeProject "proj" none true 10 none).files_analyzed = 0
      ∧ (analyzeProject "proj" none true 10 none).overall_score = 100 := by
  refine ⟨by decide, by decide, by decide⟩

/-- C5 (amended): a given *non-empty* `specific_files` list selects exactly
the entries that exist once joined to the root, bypassing traversal; the
empty list is falsy in `if specific_files:` and is treated like `None`,
triggering the full directory walk.  `files_analyzed` counts exactly the
selected paths. -/
theorem c5_specific_files (projectPath : String) (root : Option FSEntry)
    (includeTests : Bool) (maxDepth : Nat) :
    (∀ f fs, selectFiles projectPath root includeTests maxDepth (some (f :: fs))
        = ((f :: fs).filter fun g =>
            pathExists root (relOf projectPath (joinPath projectPath g))).map
            (joinPath projectPath))
    ∧ selectFiles projectPath root includeTests maxDepth (some [])
        = selectFiles projectPath root includeTests maxDepth none
    ∧ selectFiles projectPath root includeTests maxDepth none
        = ((collectRel root includeTests maxDepth).map fun r => projectPath ++ "/" ++ r)
    ∧ (∀ sf, (analyzeProject projectPath root includeTests maxDepth sf).files_analyzed
        = (selectFiles projectPath root includeTests maxDepth sf).length) :=
  ⟨fun _ _ => rfl, rfl, rfl, fun _ => rfl⟩

/-- C5 counterexample: with the empty `specific_files` list the analyzed set
is not empty - the full tree walk runs and finds the one file. -/
theorem c5_counterexample :
    selectFiles "proj" (some exFS5) true 10 (some []) = ["proj/a.py"]
      ∧ (analyzeProject "proj" (some exFS5) true 10 (some [])).files_analyzed = 1 := by
  refine ⟨by decide, by decide⟩

/-- Witness for C5 at a concrete input. -/
theorem c5_witness :
    selectFiles "proj" (some exFS5) true 10 (some ["a.py", "missing.py"])
        = (["a.py", "missing.py"].filter fun g =>
            pathExists (some exFS5) (relOf "proj" (joinPath "proj" g))).map (joinPath "proj")
      ∧ (["a.py", "missing.py"].filter fun g =>
          pathExists (some exFS5) (relOf "proj" (joinPath "proj" g))).map (joinPath "proj")
        = ["proj/a.py"] :=
  ⟨(c5_specific_files "proj" (some exFS5) true 10).1 "a.py" ["missing.py"], by decide⟩

/-! ## C6: heuristic-bracket long-function detection -/

lemma jsLongIssueOf_short (rel : String) (cs : List Char) (m : Nat × Nat × String)
    (h : jsFnSpan cs m ≤ 50) : jsLongIssueOf rel cs m = [] := by
  have h' : ¬ 50 < countNLBefore cs (braceEndPos cs (m.2.1 - 1)) + 1
      - (countNLBefore cs m.1 + 1) := by
    simp only [jsFnSpan] at h
    omega
  simp only [jsLongIssueOf, if_neg h']

lemma jsLongIssueOf_long (rel : String) (cs : List Char) (m : Nat × Nat × String)
    (h : 50 < jsFnSpan cs m) :
    ∃ i, jsLongIssueOf rel cs m = [i]
      ∧ i.issue_type = "smell" ∧ i.category = "Long Method"
      ∧ i.severity = (if 100 < jsFnSpan cs m then "high" else "medium")
      ∧ i.estimated_hours = (jsHoursTenths (jsFnSpan cs m - 50) : ℤ)
      ∧ i.line_start = some (countNLBefore cs m.1 + 1)
      ∧ i.line_end = some (countNLBefore cs (braceEndPos cs (m.2.1 - 1)) + 1) := by
  have h' : 50 < countNLBefore cs (braceEndPos cs (m.2.1 - 1)) + 1
      - (countNLBefore cs m.1 + 1) := by
    simp only [jsFnSpan] at h
    omega
  simp only [jsLongIssueOf, if_pos h']
  refine ⟨_, rfl, rfl, rfl, rfl, rfl, rfl, rfl⟩

/-- The expected long-method issue for `constContent`. -/
def c6ConstIssue : Issue :=
  { file_path := "a.js", issue_type := "smell", category := "Long Method"
    severity := "medium"
    title := "Function " ++ aposStr ++ "f" ++ aposStr ++ " is too long (60 lines)"
    description := "This function has 60 lines of code, which exceeds the recommended maximum of 50 lines."
    line_start := some 1, line_end := some 61, estimated_hours := 5 }

/-- C6 (amended): in a `.js`/`.ts`/`.jsx`/`.tsx` file, the long-function
detector matches declarations with the pattern whose alternatives are
`function`, `const` and `let` only - `var`, present in the complexity
pattern, is absent here - and yields a Long Method smell exactly for the
matches whose span (line of the match start to the line of the
depth-matched closing brace) exceeds 50 lines, with severity high above 100
lines and medium otherwise and `round((length-50)*0.05, 1)` hours computed
in IEEE-754 double precision (`jsHoursTenths (length-50)` tenths); a
`var`-bound function yields no Long Method issue. -/
theorem c6_long_js_functions :
    (∀ relPath content i,
        i ∈ jsLongIssues relPath content ↔
          ∃ m, m ∈ findMatches jsLongKws content.data
            ∧ 50 < jsFnSpan content.data m
            ∧ jsLongIssueOf relPath content.data m = [i])
    ∧ (∀ relPath cs m, jsFnSpan cs m ≤ 50 → jsLongIssueOf relPath cs m = [])
    ∧ (∀ relPath cs m, 50 < jsFnSpan cs m →
        ∃ i, jsLongIssueOf relPath cs m = [i]
          ∧ i.issue_type = "smell" ∧ i.category = "Long Method"
          ∧ i.severity = (if 100 < jsFnSpan cs m then "high" else "medium")
          ∧ i.estimated_hours = (jsHoursTenths (jsFnSpan cs m - 50) : ℤ)
          ∧ i.line_start = some (countNLBefore cs m.1 + 1))
    ∧ jsLongKws = ["function", "const", "let"]
    ∧ jsCxKws = ["function", "const", "let", "var"]
    ∧ jsLongIssues "a.js" constContent = [c6ConstIssue] := by
  refine ⟨?_, ?_, ?_, rfl, rfl, by decide⟩
  · intro relPath content i
    simp only [jsLongIssues, List.mem_flatMap]
    constructor
    · rintro ⟨m, hm, hi⟩
      by_cases h : 50 < jsFnSpan content.data m
      · obtain ⟨j, hj, -⟩ := jsLongIssueOf_long relPath content.data m h
        rw [hj] at hi
        simp only [List.mem_singleton] at hi
        exact ⟨m, hm, h, by rw [hj, hi]⟩
      · rw [jsLongIssueOf_short relPath content.data m (by omega)] at hi
        simp at hi
    · rintro ⟨m, hm, -, hi⟩
      exact ⟨m, hm, by simp [hi]⟩
  · exact jsLongIssueOf_short
  · intro relPath cs m h
    obtain ⟨i, h1, h2, h3, h4, h5, h6, h7⟩ := jsLongIssueOf_long relPath cs m h
    exact ⟨i, h1, h2, h3, h4, h5, h6⟩

/-- C6 counterexample: the complexity pattern (with `var`) locates the
`var`-bound 60-line function, so its span exceeds 50 lines, yet the
long-function detector (whose pattern lacks `var`) emits nothing; the
identical `const` binding is detected. -/
theorem c6_counterexample :
    findMatches jsCxKws varContent.data = [(0, 20, "f")]
      ∧ jsFnSpan varContent.data (0, 20, "f") = 60
      ∧ jsLongIssues "a.js" varContent = []
      ∧ jsLongIssues "a.js" constContent = [c6ConstIssue] := by
  refine ⟨by decide, by decide, by decide, by decide⟩

/-- Witness for C6 at a concrete input. -/
theorem c6_witness :
    (∃ i, jsLongIssueOf "a.js" constContent.data (0, 22, "f") = [i]
      ∧ i.issue_type = "smell" ∧ i.category = "Long Method"
      ∧ i.severity = (if 100 < jsFnSpan constContent.data (0, 22, "f") then "high" else "medium")
      ∧ i.estimated_hours = (jsHoursTenths (jsFnSpan constContent.data (0, 22, "f") - 50) : ℤ)
      ∧ i.line_start = some (countNLBefore constContent.data 0 + 1)) :=
  c6_long_js_functions.2.2.1 "a.js" constContent.data (0, 22, "f") (by decide)

/-! ## C7: Python manifest analysis -/

/-- The expected issue for `flask==1.1.2`. -/
def c7FlaskIssue : Issue :=
  { file_path := "requirements.txt", issue_type := "dependency"
    category := "Potentially Outdated Dependency", severity := "low"
    title := "Package " ++ aposStr ++ "flask" ++ aposStr ++ " may be outdated (v1.1.2)"
    description := "The package " ++ aposStr ++ "flask" ++ aposStr ++ " is pinned to version 1.1.2. Consider checking for updates."
    line_start := some 1, line_end := none, estimated_hours := 2 }

/-- C7: for a requirements line, an issue is emitted exactly when the
stripped line is non-blank, is not a comment, contains `==`, its version part
(between the first and second `==`) contains `0.`, `1.` or `2.` as a
substring, and its package part is not `python`; the issue carries the
category "Potentially Outdated Dependency", severity low, 0.2 hours
(2 tenths) and the manifest line number.  `flask==1.1.2` yields exactly one
issue naming flask and `python==3.11` yields none. -/
theorem c7_requirements_manifest :
    (∀ lineNum rawLine i, i ∈ reqLineIssues lineNum rawLine →
        i.file_path = "requirements.txt" ∧ i.issue_type = "dependency"
          ∧ i.category = "Potentially Outdated Dependency" ∧ i.severity = "low"
          ∧ i.estimated_hours = 2 ∧ i.line_start = some lineNum)
    ∧ (∀ lineNum rawLine, reqLineIssues lineNum rawLine ≠ [] ↔
        (stripCL rawLine ≠ [] ∧ hasPre "#".data (stripCL rawLine) = false
          ∧ ∃ pv, reqSplit (stripCL rawLine) = some pv
            ∧ (containsSub pv.2 "0.".data ∨ containsSub pv.2 "1.".data
                ∨ containsSub pv.2 "2.".data)
            ∧ pv.1 ≠ "python".data))
    ∧ reqIssues "flask==1.1.2" = [c7FlaskIssue]
    ∧ reqIssues "python==3.11" = [] := by
  refine ⟨?_, ?_, by decide, by decide⟩
  · intro lineNum rawLine i hi
    unfold reqLineIssues at hi
    split at hi
    · split at hi
      · simp at hi
      · unfold reqIssueFor at hi
        split at hi
        · simp only [List.mem_singleton] at hi
          subst hi
          exact ⟨rfl, rfl, rfl, rfl, rfl, rfl⟩
        · simp at hi
    · simp at hi
  · intro lineNum rawLine
    unfold reqLineIssues reqSplit
    constructor
    · intro hne
      split at hne
      · rename_i hcond
        split at hne
        · simp at hne
        · rename_i before after heq
          unfold reqIssueFor at hne
          split at hne
          · rename_i hver
            refine ⟨hcond.1, by simpa using hcond.2, ⟨stripCL before, reqVersionOf after⟩, ?_, hver.1, hver.2⟩
            rfl
          · simp at hne
      · simp at hne
    · rintro ⟨h1, h2, ⟨pkg, ver⟩, hsplit, hver, hpkg⟩
      have hcond : stripCL rawLine ≠ [] ∧ ¬ hasPre "#".data (stripCL rawLine) := by
        exact ⟨h1, by simp [h2]⟩
      rw [if_pos hcond]
      split
      · rename_i heq
        rw [heq] at hsplit
        exact absurd hsplit (by simp)
      · rename_i before after heq
        rw [heq] at hsplit
        simp only [Option.some.injEq, Prod.mk.injEq] at hsplit
        unfold reqIssueFor
        rw [if_pos ⟨by rw [hsplit.2]; exact hver, by rw [hsplit.1]; exact hpkg⟩]
        simp

/-- Witness for C7 at a concrete input. -/
theorem c7_witness :
    c7FlaskIssue.severity = "low" ∧ c7FlaskIssue.estimated_hours = 2
      ∧ c7FlaskIssue.line_start = some 1
      ∧ reqLineIssues 1 "flask==1.1.2".data ≠ [] := by
  have hmem : c7FlaskIssue ∈ reqLineIssues 1 "flask==1.1.2".data := by decide
  have h := c7_requirements_manifest.1 1 "flask==1.1.2".data c7FlaskIssue hmem
  have h2 := (c7_requirements_manifest.2.1 1 "flask==1.1.2".data).2
  refine ⟨h.2.2.2.1, h.2.2.2.2.1, h.2.2.2.2.2, ?_⟩
  apply h2
  refine ⟨by decide, by decide, ⟨"flask".data, "1.1.2".data⟩, by decide, by decide, by decide⟩

/-! ## C8: recoverable errors never abort the run -/

/-- The single issue expected from `good.py` in `exFS8`. -/
def c8GoodIssue : Issue :=
  { file_path := "good.py", issue_type := "complexity"
    category := "High Cyclomatic Complexity", severity := "medium"
    title := "Function " ++ aposStr ++ "g" ++ aposStr ++ " has high complexity (16)"
    description := "The function " ++ aposStr ++ "g" ++ aposStr ++ " has a cyclomatic complexity of 16, which exceeds the recommended threshold of 15. High complexity makes code harder to understand, test, and maintain."
    line_start := some 1, line_end := some 31, estimated_hours := 5 }

/-- C8: recoverable errors are local.  A Python file whose parse fails
contributes no complexity or smell issues; the issue list of the report is
always the concatenation of the own contribution of every collected file with the
duplication and dependency passes (the run never stops at a failing file);
and a `package.json` whose JSON parse fails leaves the dependency pass with
only the contribution of the requirements manifest. -/
theorem c8_recoverable_errors :
    (∀ relPath, pyAllIssues relPath none = [])
    ∧ (∀ projectPath root includeTests maxDepth specificFiles,
        (analyzeProject projectPath root includeTests maxDepth specificFiles).issues
          = (selectFiles projectPath root includeTests maxDepth specificFiles).flatMap
              (perFileIssues projectPath root
                (buildCorpus projectPath root
                  (selectFiles projectPath root includeTests maxDepth specificFiles)))
            ++ detectDuplication
                (buildCorpus projectPath root
                  (selectFiles projectPath root includeTests maxDepth specificFiles))
            ++ analyzeDependencies root)
    ∧ (∀ root d, resolveData root "package.json" = some d → d.jsonVal = none →
        analyzeDependencies root
          = (match resolveData root "requirements.txt" with
             | some d2 => reqIssues d2.content
             | none => [])) := by
  refine ⟨fun relPath => rfl, fun p root it md sf => rfl, ?_⟩
  intro root d hres hjson
  unfold analyzeDependencies
  rw [hres]
  simp [hjson]

set_option maxRecDepth 40000 in
/-- Witness for C8 at a concrete input: the parse-failing `bad.py` contributes
nothing, the malformed `package.json` contributes nothing, and the run still
reports the complexity issue of `good.py`. -/
theorem c8_witness :
    pyAllIssues "bad.py" none = []
      ∧ analyzeDependencies (some exFS8) = []
      ∧ (analyzeProject "proj8" (some exFS8) true 10 none).issues = [c8GoodIssue]
      ∧ (analyzeProject "proj8" (some exFS8) true 10 none).files_analyzed = 2 := by
  refine ⟨c8_recoverable_errors.1 "bad.py", ?_, by decide, by decide⟩
  have h := c8_recoverable_errors.2.2 (some exFS8) ⟨"\x7b not json", none, none⟩ rfl rfl
  rw [h]
  rfl

/-! ## C10: duplication issue line ranges -/

/-- C10: every emitted Code Duplication issue has
`line_end = line_start + 5`, so the reported range covers six line numbers
while the hashed window is five lines (`minBlockSize`). -/
theorem c10_duplication_line_range (corpus : List (String × String)) (i : Issue)
    (hi : i ∈ detectDuplication corpus) :
    ∃ s, i.line_start = some s ∧ i.line_end = some (s + 5) ∧ (s + 5) + 1 - s = 6 := by
  unfold detectDuplication at hi
  rw [List.mem_filterMap] at hi
  obtain ⟨g, -, hg⟩ := hi
  by_cases h1 : 1 < g.2.length
  · rw [if_pos h1, Option.some.injEq] at hg
    subst hg
    exact ⟨(g.2.headD ("", 0)).2, rfl, rfl, by omega⟩
  · rw [if_neg h1] at hg
    exact absurd hg (by simp)

/-- Witness for C10 at a concrete input. -/
theorem c10_witness :
    ∃ s, (dupIssueOf [("f1.py", 1), ("f2.py", 1), ("f3.py", 1)]).line_start = some s
      ∧ (dupIssueOf [("f1.py", 1), ("f2.py", 1), ("f3.py", 1)]).line_end = some (s + 5)
      ∧ (s + 5) + 1 - s = 6 :=
  c10_duplication_line_range exCorpus3 (dupIssueOf [("f1.py", 1), ("f2.py", 1), ("f3.py", 1)])
    (by decide)

/-! ## C4: duplication detection -/

lemma dedupFirst_nodup (l : List String) : (dedupFirst l).Nodup := by
  induction l with
  | nil => simp [dedupFirst]
  | cons s rest ih =>
    simp only [dedupFirst, List.nodup_cons]
    refine ⟨fun hmem => ?_, ih.filter _⟩
    have := (List.mem_filter.mp hmem).2
    simp at this

lemma dedupFirst_length_le (l : List String) : (dedupFirst l).length ≤ l.length := by
  induction l with
  | nil => simp [dedupFirst]
  | cons s rest ih =>
    simp only [dedupFirst, List.length_cons]
    have := List.length_filter_le (fun x => decide (x ≠ s)) (dedupFirst rest)
    omega

lemma addOcc_fst (m : List (List Char × List (String × Nat))) (k : List Char)
    (v : String × Nat) :
    (addOcc m k v).map Prod.fst
      = if k ∈ m.map Prod.fst then m.map Prod.fst else m.map Prod.fst ++ [k] := by
  induction m with
  | nil => simp [addOcc]
  | cons kv rest ih =>
    obtain ⟨k', vs⟩ := kv
    by_cases hk : k' = k
    · subst hk
      simp [addOcc]
    · simp only [addOcc, if_neg hk, List.map_cons, ih]
      have hne : ¬ (k ∈ ([k'] : List (List Char))) := by simp [Ne.symm hk]
      by_cases hmem : k ∈ rest.map Prod.fst
      · simp [hmem, Ne.symm hk]
      · simp [hmem, Ne.symm hk]

lemma addOcc_nodup_fst (m : List (List Char × List (String × Nat))) (k : List Char)
    (v : String × Nat) (h : (m.map Prod.fst).Nodup) :
    ((addOcc m k v).map Prod.fst).Nodup := by
  rw [addOcc_fst]
  split
  · exact h
  · rename_i hmem
    simp [List.nodup_append, h, hmem]

lemma foldl_addOcc_nodup_fst (ws : List (List Char × String × Nat))
    (m : List (List Char × List (String × Nat))) (h : (m.map Prod.fst).Nodup) :
    (((ws.foldl (fun m w => addOcc m w.1 w.2) m)).map Prod.fst).Nodup := by
  induction ws generalizing m with
  | nil => exact h
  | cons w rest ih => exact ih _ (addOcc_nodup_fst m w.1 w.2 h)

lemma filterMap_if_length {α β : Type} (f : α → β) (p : α → Prop) [DecidablePred p]
    (l : List α) :
    (l.filterMap fun a => if p a then some (f a) else none).length
      = (l.filter fun a => decide (p a)).length := by
  induction l with
  | nil => rfl
  | cons a rest ih =>
    by_cases hp : p a
    · simp [List.filterMap_cons, List.filter_cons, hp, ih]
    · simp [List.filterMap_cons, List.filter_cons, hp, ih]

/-- The one issue expected from `exCorpus3`. -/
def c4DupIssue : Issue :=
  { file_path := "f1.py", issue_type := "duplication", category := "Code Duplication"
    severity := "low"
    title := "Duplicate code block found in 3 locations"
    description := "This code block appears in 3 different locations: f1.py, f2.py, f3.py. Consider extracting to a shared function."
    line_start := some 1, line_end := some 6, estimated_hours := 15 }

/-- C4: duplication detection.  A 5-line window is recorded exactly when its
whitespace-normalized text is longer than 50 characters; the recorded groups
carry pairwise-distinct hashes (normalized blocks), and exactly one issue is
emitted per group with more than one occurrence, anchored at the first
occurrence, with severity medium above 3 occurrences and low otherwise,
`0.5 * n` hours (`5 * n` tenths), and a description naming at most 3 distinct
files.  The same qualifying block in three distinct files yields exactly one
low-severity issue with 1.5 hours (15 tenths). -/
theorem c4_duplication_detection :
    (∀ relPath content i, i < (splitLinesCL content.data).length + 1 - minBlockSize →
        (50 < (normWindow (splitLinesCL content.data) i).length ↔
          (normWindow (splitLinesCL content.data) i, relPath, i + 1)
            ∈ windowsOf relPath content))
    ∧ (∀ corpus : List (String × String), ((dupGroups corpus).map Prod.fst).Nodup)
    ∧ (∀ corpus : List (String × String),
        (detectDuplication corpus).length
          = ((dupGroups corpus).filter fun g => decide (1 < g.2.length)).length)
    ∧ (∀ corpus g, g ∈ dupGroups corpus → 1 < g.2.length →
        dupIssueOf g.2 ∈ detectDuplication corpus)
    ∧ (∀ occ : List (String × Nat), 1 < occ.length →
        (dupIssueOf occ).issue_type = "duplication"
          ∧ (dupIssueOf occ).category = "Code Duplication"
          ∧ (dupIssueOf occ).severity = (if 3 < occ.length then "medium" else "low")
          ∧ (dupIssueOf occ).estimated_hours = 5 * (occ.length : ℤ)
          ∧ (dupIssueOf occ).file_path = (occ.headD ("", 0)).1
          ∧ (dupIssueOf occ).line_start = some (occ.headD ("", 0)).2
          ∧ (dupMentionedFiles occ).length ≤ 3 ∧ (dupMentionedFiles occ).Nodup)
    ∧ detectDuplication exCorpus3 = [c4DupIssue] := by
  refine ⟨?_, ?_, ?_, ?_, ?_, by decide⟩
  · intro relPath content i hi
    unfold windowsOf
    constructor
    · intro hlen
      rw [List.mem_filterMap]
      exact ⟨i, List.mem_range.mpr hi, by rw [if_pos hlen]⟩
    · intro hmem
      rw [List.mem_filterMap] at hmem
      obtain ⟨j, -, hj⟩ := hmem
      by_cases hc : 50 < (normWindow (splitLinesCL content.data) j).length
      · rw [if_pos hc, Option.some.injEq] at hj
        have : j = i := by
          have := congrArg (fun t => t.2.2) hj
          simpa using this
        subst this
        exact hc
      · rw [if_neg hc] at hj
        exact absurd hj (by simp)
  · intro corpus
    exact foldl_addOcc_nodup_fst _ [] (by simp)
  · intro corpus
    exact filterMap_if_length _ _ _
  · intro corpus g hg h1
    unfold detectDuplication
    rw [List.mem_filterMap]
    exact ⟨g, hg, by rw [if_pos h1]⟩
  · intro occ h1
    refine ⟨rfl, rfl, rfl, rfl, rfl, rfl, ?_, dedupFirst_nodup _⟩
    calc (dupMentionedFiles occ).length
        ≤ ((occ.take 3).map Prod.fst).length := dedupFirst_length_le _
      _ ≤ 3 := by simp [List.length_take]

/-- Witness for C4 at concrete inputs. -/
theorem c4_witness :
    dupIssueOf [("f1.py", 1), ("f2.py", 1), ("f3.py", 1)] ∈ detectDuplication exCorpus3
      ∧ (dupIssueOf [("f1.py", 1), ("f2.py", 1), ("f3.py", 1)]).severity
          = (if 3 < ([("f1.py", 1), ("f2.py", 1), ("f3.py", 1)] : List (String × Nat)).length
             then "medium" else "low")
      ∧ (dupIssueOf [("f1.py", 1), ("f2.py", 1), ("f3.py", 1)]).estimated_hours = 15
      ∧ (50 : Nat) <
          (normWindow (splitLinesCL dupBlock.data) 0).length := by
  have hmem := c4_duplication_detection.2.2.2.1 exCorpus3
    (normWindow (splitLinesCL dupBlock.data) 0, [("f1.py", 1), ("f2.py", 1), ("f3.py", 1)])
    (by decide) (by decide)
  have hf := c4_duplication_detection.2.2.2.2.1 [("f1.py", 1), ("f2.py", 1), ("f3.py", 1)]
    (by decide)
  have hw := (c4_duplication_detection.1 "f1.py" dupBlock 0 (by decide)).mpr (by decide)
  exact ⟨hmem, hf.2.2.1, by decide, hw⟩

/-! ## C9: well-formedness of every emitted issue -/

lemma wf_fnCxIssue (relPath fname : String) (lineno endLineno cx : Nat) (i : Issue)
    (hi : i ∈ fnCxIssue relPath fname lineno endLineno cx) : WFIssue i := by
  unfold fnCxIssue at hi
  split at hi
  · rename_i h15
    simp only [List.mem_singleton] at hi
    subst hi
    refine ⟨?_, ?_, by simp⟩
    · dsimp only
      split_ifs <;> simp
    · dsimp only
      omega
  · simp at hi

lemma wf_classIssue (relPath cname : String) (lineno endLineno mcount : Nat) (i : Issue)
    (hi : i ∈ classIssue relPath cname lineno endLineno mcount) : WFIssue i := by
  unfold classIssue at hi
  split at hi
  · simp only [List.mem_singleton] at hi
    subst hi
    exact ⟨by simp, by dsimp only; omega, by simp⟩
  · simp at hi

lemma wf_longFnIssue (relPath fname : String) (lineno endLineno : Nat) (i : Issue)
    (hi : i ∈ longFnIssue relPath fname lineno endLineno) : WFIssue i := by
  unfold longFnIssue at hi
  split at hi
  · simp only [List.mem_singleton] at hi
    subst hi
    refine ⟨?_, ?_, by simp⟩
    · dsimp only
      split_ifs <;> simp
    · dsimp only
      exact Int.natCast_nonneg _
  · simp at hi

lemma wf_unusedIssue (relPath fname : String) (lineno : Nat) (unused : List String)
    (i : Issue) (hi : i ∈ unusedIssue relPath fname lineno unused) : WFIssue i := by
  unfold unusedIssue at hi
  split at hi
  · simp at hi
  · simp only [List.mem_singleton] at hi
    subst hi
    exact ⟨by simp, by norm_num, by simp⟩

lemma wf_cxEmit (relPath : String) (n : PyAst) (i : Issue) (hi : i ∈ cxEmit relPath n) :
    WFIssue i := by
  cases n with
  | functionDef nm l e body => exact wf_fnCxIssue _ _ _ _ _ _ hi
  | asyncFunctionDef nm l e body => exact wf_fnCxIssue _ _ _ _ _ _ hi
  | classDef nm l e body => exact wf_classIssue _ _ _ _ _ _ hi
  | _ => simp [cxEmit] at hi

lemma wf_longEmit (relPath : String) (n : PyAst) (i : Issue) (hi : i ∈ longEmit relPath n) :
    WFIssue i := by
  cases n with
  | functionDef nm l e body => exact wf_longFnIssue _ _ _ _ _ hi
  | asyncFunctionDef nm l e body => exact wf_longFnIssue _ _ _ _ _ hi
  | _ => simp [longEmit] at hi

lemma wf_unusedEmit (relPath : String) (n : PyAst) (i : Issue)
    (hi : i ∈ unusedEmit relPath n) : WFIssue i := by
  cases n with
  | functionDef nm l e body => exact wf_unusedIssue _ _ _ _ _ hi
  | asyncFunctionDef nm l e body => exact wf_unusedIssue _ _ _ _ _ hi
  | _ => simp [unusedEmit] at hi

lemma wf_pyAll (relPath : String) (t : Option PyAst) (i : Issue)
    (hi : i ∈ pyAllIssues relPath t) : WFIssue i := by
  cases t with
  | none => simp [pyAllIssues] at hi
  | some tree =>
    simp only [pyAllIssues, pyCxIssues, pyLongIssues, pyUnusedIssues,
      List.mem_append, List.mem_flatMap] at hi
    rcases hi with (⟨n, -, hn⟩ | ⟨n, -, hn⟩) | ⟨n, -, hn⟩
    · exact wf_cxEmit _ _ _ hn
    · exact wf_longEmit _ _ _ hn
    · exact wf_unusedEmit _ _ _ hn

lemma wf_jsCxIssueOf (relPath : String) (cs : List Char) (m : Nat × Nat × String)
    (i : Issue) (hi : i ∈ jsCxIssueOf relPath cs m) : WFIssue i := by
  unfold jsCxIssueOf at hi
  split at hi
  · rename_i h15
    simp only [List.mem_singleton] at hi
    subst hi
    refine ⟨?_, ?_, by simp⟩
    · dsimp only
      split_ifs <;> simp
    · dsimp only
      omega
  · simp at hi

lemma wf_jsLongIssueOf (relPath : String) (cs : List Char) (m : Nat × Nat × String)
    (i : Issue) (hi : i ∈ jsLongIssueOf relPath cs m) : WFIssue i := by
  by_cases h : 50 < jsFnSpan cs m
  · obtain ⟨j, hj, hty, hcat, hsev, hhrs, -, -⟩ := jsLongIssueOf_long relPath cs m h
    rw [hj, List.mem_singleton] at hi
    subst hi
    refine ⟨?_, ?_, by simp [hty]⟩
    · rw [hsev]
      split_ifs <;> simp
    · rw [hhrs]
      exact Int.natCast_nonneg _
  · rw [jsLongIssueOf_short relPath cs m (by omega)] at hi
    simp at hi

lemma wf_jsAll (relPath : String) (content : String) (i : Issue)
    (hi : i ∈ jsAllIssues relPath content) : WFIssue i := by
  simp only [jsAllIssues, jsCxIssues, jsLongIssues, List.mem_append,
    List.mem_flatMap] at hi
  rcases hi with ⟨m, -, hm⟩ | ⟨m, -, hm⟩
  · exact wf_jsCxIssueOf _ _ _ _ hm
  · exact wf_jsLongIssueOf _ _ _ _ hm

lemma wf_perFile (projectPath : String) (root : Option FSEntry)
    (corpus : List (String × String)) (abs : String) (i : Issue)
    (hi : i ∈ perFileIssues projectPath root corpus abs) : WFIssue i := by
  unfold perFileIssues at hi
  split at hi
  · exact wf_pyAll _ _ _ hi
  · split at hi
    · exact wf_jsAll _ _ _ hi
    · simp at hi

lemma wf_dup (corpus : List (String × String)) (i : Issue)
    (hi : i ∈ detectDuplication corpus) : WFIssue i := by
  unfold detectDuplication at hi
  rw [List.mem_filterMap] at hi
  obtain ⟨g, -, hg⟩ := hi
  split at hg
  · rw [Option.some.injEq] at hg
    subst hg
    refine ⟨?_, ?_, by simp [dupIssueOf]⟩
    · simp only [dupIssueOf]
      split_ifs <;> simp
    · simp only [dupIssueOf]
      positivity
  · exact absurd hg (by simp)

lemma wf_reqLine (lineNum : Nat) (rawLine : List Char) (i : Issue)
    (hi : i ∈ reqLineIssues lineNum rawLine) : WFIssue i := by
  unfold reqLineIssues at hi
  split at hi
  · split at hi
    · simp at hi
    · unfold reqIssueFor at hi
      split at hi
      · simp only [List.mem_singleton] at hi
        subst hi
        exact ⟨by simp, by norm_num, by simp⟩
      · simp at hi
  · simp at hi

lemma wf_pkgIssues (j : PkgJson) (i : Issue) (hi : i ∈ pkgIssues j) : WFIssue i := by
  unfold pkgIssues at hi
  rw [List.mem_filterMap] at hi
  obtain ⟨pv, -, hpv⟩ := hi
  split at hpv
  · rw [Option.some.injEq] at hpv
    subst hpv
    exact ⟨by simp, by norm_num, by simp⟩
  · exact absurd hpv (by simp)

lemma wf_deps (root : Option FSEntry) (i : Issue) (hi : i ∈ analyzeDependencies root) :
    WFIssue i := by
  unfold analyzeDependencies at hi
  rw [List.mem_append] at hi
  rcases hi with hreq | hpkg
  · split at hreq
    · simp only [reqIssues, List.mem_flatMap] at hreq
      obtain ⟨nl, -, hnl⟩ := hreq
      exact wf_reqLine _ _ _ hnl
    · simp at hreq
  · split at hpkg
    · split at hpkg
      · exact wf_pkgIssues _ _ hpkg
      · simp at hpkg
    · simp at hpkg

/-- C9: every issue any detector emits into the report has a severity drawn
from `{critical, high, medium, low}`, a non-negative `estimated_hours`, and
exactly one `issue_type` drawn from
`{complexity, smell, duplication, dependency, architecture}`. -/
theorem c9_issue_well_formedness (projectPath : String) (root : Option FSEntry)
    (includeTests : Bool) (maxDepth : Nat) (specificFiles : Option (List String))
    (i : Issue)
    (hi : i ∈ (analyzeProject projectPath root includeTests maxDepth specificFiles).issues) :
    WFIssue i := by
  have hsplit : (analyzeProject projectPath root includeTests maxDepth specificFiles).issues
      = (selectFiles projectPath root includeTests maxDepth specificFiles).flatMap
          (perFileIssues projectPath root
            (buildCorpus projectPath root
              (selectFiles projectPath root includeTests maxDepth specificFiles)))
        ++ detectDuplication
            (buildCorpus projectPath root
              (selectFiles projectPath root includeTests maxDepth specificFiles))
        ++ analyzeDependencies root := rfl
  rw [hsplit, List.mem_append, List.mem_append] at hi
  rcases hi with (hper | hdup) | hdep
  · rw [List.mem_flatMap] at hper
    obtain ⟨abs, -, habs⟩ := hper
    exact wf_perFile _ _ _ _ _ habs
  · exact wf_dup _ _ hdup
  · exact wf_deps _ _ hdep

/-- Witness for C9 at a concrete input. -/
theorem c9_witness :
    c7FlaskIssue ∈ (analyzeProject "proj9" (some exFS9) true 10 none).issues
      ∧ WFIssue c7FlaskIssue :=
  ⟨by decide, c9_issue_well_formedness "proj9" (some exFS9) true 10 none c7FlaskIssue
    (by decide)⟩
